import Mathlib

/-!
Verification of the WhatWeather repository core against its specification.

The development shallowly embeds the two specified components:
the synthetic tide generator
(src/scripts/kartverket_tide.py, KartverketTideAPI._generate_sample_tide_data)
and the four output formatters
(src/scripts/format_html.py, format_excel.py, format_yaml.py, format_text.py).

Modelling conventions:
timestamps are whole seconds (a Python datetime is represented by its epoch
second count; the generator only ever steps by the fixed one-hour interval,
and a step of timedelta(hours=1) adds 3600 seconds);
Python float arithmetic is modelled by exact real arithmetic;
JSON-like Python values are the inductive type JVal, with a dict represented
as its insertion-ordered key/value list;
Python operations that can raise (attribute access, subscription, iteration
on values of the wrong runtime type) are embedded in an Except monad, while
operations that cannot raise are plain functions.
-/

/-! Part 1: the synthetic tide generator (kartverket_tide.py, lines 117-156). -/

/-- Python round(x, 1) on the exact real model: multiply by 10, round to the
nearest integer with ties going to the even integer (the float builtin round
is round-half-to-even), divide by 10. -/
noncomputable def pyRound1 (x : ℝ) : ℝ :=
  ((if x * 10 - ⌊x * 10⌋ < 1 / 2 then ⌊x * 10⌋
    else if 1 / 2 < x * 10 - ⌊x * 10⌋ then ⌊x * 10⌋ + 1
    else if Even ⌊x * 10⌋ then ⌊x * 10⌋ else ⌊x * 10⌋ + 1 : ℤ) : ℝ) / 10

/-- Constant from kartverket_tide.py line 126: tidal_period_hours = 12.42. -/
noncomputable def tidal_period_hours : ℝ := 12.42

/-- Constant from kartverket_tide.py line 127: mean_high_water = 150 (cm). -/
noncomputable def mean_high_water : ℝ := 150

/-- Constant from kartverket_tide.py line 128: mean_low_water = 50 (cm). -/
noncomputable def mean_low_water : ℝ := 50

/-- kartverket_tide.py line 129: tidal_range = mean_high_water - mean_low_water. -/
noncomputable def tidal_range : ℝ := mean_high_water - mean_low_water

/-- kartverket_tide.py line 130: mean_tide = (mean_high_water + mean_low_water) / 2. -/
noncomputable def mean_tide : ℝ := (mean_high_water + mean_low_water) / 2

/-- The loop body arithmetic of _generate_sample_tide_data (lines 136-143):
the unrounded tide height at a given number of elapsed hours. -/
noncomputable def tideHeight (hoursElapsed : ℝ) : ℝ :=
  let tide_m2 := Real.sin (2 * Real.pi * hoursElapsed / tidal_period_hours)
  let tide_s2 := 0.3 * Real.sin (2 * Real.pi * hoursElapsed / 12.0)
  mean_tide + (tidal_range / 2) * (tide_m2 + tide_s2)

/-- One element of the generated timeseries: the entry time (epoch seconds;
the source renders it as an ISO-8601 string, a strictly monotone encoding)
and the single detail value sea_surface_height_above_chart_datum in cm. -/
structure TideEntry where
  time : ℕ
  height : ℝ

/-- The while loop of _generate_sample_tide_data (lines 132-156): starting at
current, while current is at most toTime, emit an entry whose height is the
rounded tideHeight at (current - fromTime) seconds divided by 3600 (the
total_seconds() / 3600 expression of line 134), then advance current by the
one-hour interval (3600 seconds). -/
noncomputable def genLoop (fromTime toTime current : ℕ) : List TideEntry :=
  if current ≤ toTime then
    { time := current,
      height := pyRound1 (tideHeight (((current - fromTime : ℕ) : ℝ) / 3600)) } ::
      genLoop fromTime toTime (current + 3600)
  else []
  termination_by toTime + 1 - current
  decreasing_by omega

/-- KartverketTideAPI._generate_sample_tide_data (lines 117-156), reduced to
the timeseries list it appends (the surrounding GeoJSON envelope, units
mapping and _metadata of lines 158-186 are constant glue around this list).
The loop starts with current_time = from_time. -/
noncomputable def generateSampleTideData (fromTime toTime : ℕ) : List TideEntry :=
  genLoop fromTime toTime fromTime

/-- The entry the generator emits at step i (i whole hours after fromTime). -/
noncomputable def tideEntryAt (fromTime i : ℕ) : TideEntry :=
  { time := fromTime + 3600 * i, height := pyRound1 (tideHeight i) }

/-! Part 2: JSON-like Python values and the Python primitives the formatters
use. A dict is its insertion-ordered key/value list (Python dicts preserve
insertion order); ints and floats are kept apart as Python keeps them apart. -/

inductive JVal where
  | null
  | bool (b : Bool)
  | int (n : ℤ)
  | num (q : ℚ)
  | str (s : String)
  | arr (elems : List JVal)
  | obj (fields : List (String × JVal))

/-- First binding of a key in a key/value list (Python dicts have unique
keys, so the first binding is the binding). -/
def lookupKV : List (String × JVal) → String → Option JVal
  | [], _ => none
  | (k, v) :: rest, key => if k = key then some v else lookupKV rest key

/-- Key lookup on a mapping; none when the value is not a mapping. -/
def JVal.get? : JVal → String → Option JVal
  | .obj kvs, k => lookupKV kvs k
  | _, _ => none

/-- Lookup along a key path. -/
def getPath? : JVal → List String → Option JVal
  | j, [] => some j
  | j, k :: ks =>
    match j.get? k with
    | some v => getPath? v ks
    | none => none

/-- Whether the key path is present. -/
def hasPath (j : JVal) (path : List String) : Bool := (getPath? j path).isSome

def JVal.isObjB : JVal → Bool
  | .obj _ => true
  | _ => false

def JVal.isArrB : JVal → Bool
  | .arr _ => true
  | _ => false

def JVal.isNull : JVal → Bool
  | .null => true
  | _ => false

/-- Python truthiness: None, False, zero, the empty string and the empty
containers are falsy, everything else truthy. -/
def truthy : JVal → Bool
  | .null => false
  | .bool b => b
  | .int n => decide (n ≠ 0)
  | .num q => decide (q ≠ 0)
  | .str s => decide (s ≠ "")
  | .arr xs => !xs.isEmpty
  | .obj kvs => !kvs.isEmpty

/-- Fallible Python evaluation: an Except value, error carrying the Python
exception name. -/
abbrev Py (α : Type) := Except String α

/-- Python d.get(key, default): total on dicts, AttributeError otherwise. -/
def pyGetD (j : JVal) (k : String) (d : JVal) : Py JVal :=
  match j with
  | .obj kvs => .ok ((lookupKV kvs k).getD d)
  | _ => .error "AttributeError"

/-- Python d.get(key) with the implicit None default. -/
def pyGetN (j : JVal) (k : String) : Py JVal :=
  match j with
  | .obj kvs => .ok ((lookupKV kvs k).getD .null)
  | _ => .error "AttributeError"

/-- Python key in d on a dict (the formatters only apply it to their
top-level mapping argument; membership on other container types is outside
the modelled inputs). -/
def pyHasKey (j : JVal) (k : String) : Py Bool :=
  match j with
  | .obj kvs => .ok (lookupKV kvs k).isSome
  | _ => .error "TypeError"

/-- Python d[key] subscription: KeyError when missing, TypeError when not a
dict. -/
def pySub (j : JVal) (k : String) : Py JVal :=
  match j with
  | .obj kvs =>
    match lookupKV kvs k with
    | some v => .ok v
    | none => .error "KeyError"
  | _ => .error "TypeError"

/-- Python sequence indexing xs[i] for lists. -/
def pyIdx (j : JVal) (i : ℕ) : Py JVal :=
  match j with
  | .arr xs =>
    match xs[i]? with
    | some v => .ok v
    | none => .error "IndexError"
  | _ => .error "TypeError"

/-- Python d.items(). -/
def pyItems (j : JVal) : Py (List (String × JVal)) :=
  match j with
  | .obj kvs => .ok kvs
  | _ => .error "AttributeError"

/-- Python d.keys(). -/
def pyKeysF (j : JVal) : Py (List String) :=
  match j with
  | .obj kvs => .ok (kvs.map Prod.fst)
  | _ => .error "AttributeError"

/-- Python len() on the sized values the formatters measure. -/
def pyLen (j : JVal) : Py ℕ :=
  match j with
  | .arr xs => .ok xs.length
  | .str s => .ok s.length
  | .obj kvs => .ok kvs.length
  | _ => .error "TypeError"

/-- Python iteration over a list value. -/
def pyList (j : JVal) : Py (List JVal) :=
  match j with
  | .arr xs => .ok xs
  | _ => .error "TypeError"

/-! String ordering: Python compares strings lexicographically by code
point, which is the code-point lexicographic order on the character list. -/

def charsLe : List Char → List Char → Bool
  | [], _ => true
  | _ :: _, [] => false
  | a :: as, b :: bs =>
    if a.toNat < b.toNat then true
    else if b.toNat < a.toNat then false
    else charsLe as bs

def strLeB (a b : String) : Bool := charsLe a.data b.data

/-- Insert into a list sorted by strLeB, keeping stability. -/
def insertStr (x : String) : List String → List String
  | [] => [x]
  | y :: ys => if strLeB x y then x :: y :: ys else y :: insertStr x ys

/-- Python sorted() on strings: a stable sort by code-point order. -/
def sortStrings : List String → List String
  | [] => []
  | x :: xs => insertStr x (sortStrings xs)

/-- Insert a key/value pair into a list sorted by key. Python sorted() on
dict items compares the key first and the keys of a dict never tie. -/
def insertKV (p : String × JVal) : List (String × JVal) → List (String × JVal)
  | [] => [p]
  | q :: qs => if strLeB p.1 q.1 then p :: q :: qs else q :: insertKV p qs

/-- Python sorted() on dict items, by key. -/
def sortKVs : List (String × JVal) → List (String × JVal)
  | [] => []
  | p :: ps => insertKV p (sortKVs ps)

/-! Rendering of numbers, strings and timestamps. -/

/-- The decimal digit character for a value below ten. -/
def digitChar (n : ℕ) : Char := Char.ofNat (48 + n)

/-- Decimal digits of a natural number, most significant first. -/
def natDigits (n : ℕ) : List Char :=
  if _h : n < 10 then [digitChar n]
  else natDigits (n / 10) ++ [digitChar (n % 10)]
  termination_by n
  decreasing_by omega

/-- Python str() of an int. -/
def intRepr (n : ℤ) : String :=
  if n < 0 then "-" ++ String.mk (natDigits n.natAbs)
  else String.mk (natDigits n.natAbs)

/-- The number of fractional digits used to print an exact decimal: the
least count that makes the value integral, capped at 17 (Python float repr
prints the shortest decimal that round-trips; the float literals the
repository handles are exact short decimals). -/
def fracDigitsLen (q : ℚ) : ℕ :=
  (((List.range 17).find? fun k => (q * (10 : ℚ) ^ (k + 1)).den = 1).map
    (· + 1)).getD 17

/-- Python repr of a float, on the exact rational model: sign, integer part,
point, fractional digits (at least one, as Python prints 100.0 with one). -/
def floatRepr (q : ℚ) : String :=
  let a : ℚ := |q|
  let k := fracDigitsLen a
  let m : ℕ := (⌊a * (10 : ℚ) ^ k⌋).toNat
  let s : String := String.mk (natDigits m)
  let s : String :=
    String.mk (List.replicate (k + 1 - s.length) '0') ++ s
  (if q < 0 then "-" else "") ++ s.dropRight k ++ "." ++ s.takeRight k

mutual
/-- Python repr() of a JSON-like value: None, True, False, numbers, quoted
strings, bracketed lists, braced dicts. -/
def pyRepr : JVal → String
  | .null => "None"
  | .bool true => "True"
  | .bool false => "False"
  | .int n => intRepr n
  | .num q => floatRepr q
  | .str s => "'" ++ s ++ "'"
  | .arr xs => "[" ++ pyReprList xs ++ "]"
  | .obj kvs => "\x7b" ++ pyReprKVs kvs ++ "\x7d"
def pyReprList : List JVal → String
  | [] => ""
  | [x] => pyRepr x
  | x :: xs => pyRepr x ++ ", " ++ pyReprList xs
def pyReprKVs : List (String × JVal) → String
  | [] => ""
  | [(k, v)] => "'" ++ k ++ "': " ++ pyRepr v
  | (k, v) :: kvs => "'" ++ k ++ "': " ++ pyRepr v ++ ", " ++ pyReprKVs kvs
end

/-- Python str() of a value: a string is itself, anything else its repr
(the f-string interpolations and str() calls of the formatters). -/
def pyStrFn : JVal → String
  | .str s => s
  | v => pyRepr v

/-- Python s.center(width): CPython puts marg // 2 + (marg AND width AND 1)
fill characters on the left. -/
def pyCenter (s : String) (width : ℕ) : String :=
  if width ≤ s.length then s
  else
    let marg := width - s.length
    let left := marg / 2 + (marg &&& width &&& 1)
    String.mk (List.replicate left ' ') ++ s ++
      String.mk (List.replicate (marg - left) ' ')

/-- A Python datetime value (naive, as datetime.now() returns). -/
structure PyDateTime where
  year : ℕ
  month : ℕ
  day : ℕ
  hour : ℕ
  minute : ℕ
  second : ℕ
  microsecond : ℕ

/-- The field ranges datetime guarantees. -/
def PyDateTime.ValidB (t : PyDateTime) : Bool :=
  1 ≤ t.year && t.year ≤ 9999 && 1 ≤ t.month && t.month ≤ 12 &&
  1 ≤ t.day && t.day ≤ 31 && t.hour ≤ 23 && t.minute ≤ 59 &&
  t.second ≤ 59 && t.microsecond ≤ 999999

/-- Zero-padded fixed-width decimal (the %02d and %04d of isoformat). -/
def padNum (w n : ℕ) : String :=
  String.mk (List.replicate (w - (natDigits n).length) '0' ++ natDigits n)

/-- Python datetime.isoformat(): YYYY-MM-DDTHH:MM:SS, with a .ffffff
fractional part only when the microsecond field is nonzero. -/
def pyIsoformat (t : PyDateTime) : String :=
  padNum 4 t.year ++ "-" ++ padNum 2 t.month ++ "-" ++ padNum 2 t.day ++ "T" ++
  padNum 2 t.hour ++ ":" ++ padNum 2 t.minute ++ ":" ++ padNum 2 t.second ++
  (if t.microsecond = 0 then "" else "." ++ padNum 6 t.microsecond)

/-- Python strftime("%Y-%m-%d %H:%M:%S") (the generation footers). -/
def pyStrftimeFooter (t : PyDateTime) : String :=
  padNum 4 t.year ++ "-" ++ padNum 2 t.month ++ "-" ++ padNum 2 t.day ++ " " ++
  padNum 2 t.hour ++ ":" ++ padNum 2 t.minute ++ ":" ++ padNum 2 t.second

def isDigitChar (c : Char) : Bool := 48 ≤ c.toNat && c.toNat ≤ 57

def allDigits (l : List Char) : Bool := l.all isDigitChar

/-- Optional fractional tail of a timestamp: empty, or a point followed by
at least one digit. -/
def checkFrac : List Char → Bool
  | [] => true
  | '.' :: ds => !ds.isEmpty && allDigits ds
  | _ => false

/-- Shape check for an ISO-8601 timestamp as datetime.isoformat() emits it. -/
def isValidTimestampChars : List Char → Bool
  | y1 :: y2 :: y3 :: y4 :: '-' :: o1 :: o2 :: '-' :: d1 :: d2 :: 'T' ::
      h1 :: h2 :: ':' :: m1 :: m2 :: ':' :: s1 :: s2 :: rest =>
    allDigits [y1, y2, y3, y4, o1, o2, d1, d2, h1, h2, m1, m2, s1, s2] &&
      checkFrac rest
  | _ => false

def isValidTimestamp (s : String) : Bool := isValidTimestampChars s.data

/-! HTML escaping (format_html.py line 122) and JSON serialization
(json.dumps(data, indent=2, ensure_ascii=False), used by the document, text
and generic-spreadsheet renderings). -/

/-- Concatenation of a character-wise expansion. -/
def concatEach (f : Char → List Char) : List Char → List Char
  | [] => []
  | c :: s => f c ++ concatEach f s

/-- Python s.replace(old, new) for a single-character pattern: every
occurrence of the character is replaced. -/
def pyReplaceChar (s : List Char) (old : Char) (new : List Char) : List Char :=
  concatEach (fun c => if c = old then new else [c]) s

/-- The escape chain of format_html.py line 122:
replace & by &amp; then < by &lt; then > by &gt;. -/
def escapeHtml (s : List Char) : List Char :=
  pyReplaceChar (pyReplaceChar (pyReplaceChar s '&' "&amp;".data) '<' "&lt;".data)
    '>' "&gt;".data

/-- The intended character-wise escape map: the ampersand, less-than and
greater-than signs become their entities, every other character stays. The
sequential replace chain of the source is proved equal to this map. -/
def escChar (c : Char) : List Char :=
  if c = '&' then "&amp;".data
  else if c = '<' then "&lt;".data
  else if c = '>' then "&gt;".data
  else [c]

def hexDigitChar (n : ℕ) : Char :=
  if n < 10 then digitChar n else Char.ofNat (97 + n - 10)

/-- JSON string escaping as json.dumps with ensure_ascii=False performs it:
quote, backslash and the named control escapes, a u-escape for the other
control characters, everything else verbatim. -/
def jsonEscapeChar (c : Char) : List Char :=
  if c = '"' then ['\\', '"']
  else if c = '\\' then ['\\', '\\']
  else if c = '\n' then ['\\', 'n']
  else if c = '\t' then ['\\', 't']
  else if c = '\r' then ['\\', 'r']
  else if c.toNat = 8 then ['\\', 'b']
  else if c.toNat = 12 then ['\\', 'f']
  else if c.toNat < 32 then
    '\\' :: 'u' :: '0' :: '0' :: [hexDigitChar (c.toNat / 16), hexDigitChar (c.toNat % 16)]
  else [c]

def jsonQuote (s : String) : List Char :=
  '"' :: concatEach jsonEscapeChar s.data ++ ['"']

/-- Two-space indentation at a nesting level (json.dumps indent=2). -/
def indentChars (lvl : ℕ) : List Char := List.replicate (2 * lvl) ' '

mutual
/-- json.dumps(value, indent=2, ensure_ascii=False) at a nesting level. -/
def jsonDumps : JVal → ℕ → List Char
  | .null, _ => "null".data
  | .bool true, _ => "true".data
  | .bool false, _ => "false".data
  | .int n, _ => (intRepr n).data
  | .num q, _ => (floatRepr q).data
  | .str s, _ => jsonQuote s
  | .arr [], _ => ['[', ']']
  | .arr (x :: xs), lvl =>
    '[' :: '\n' :: (indentChars (lvl + 1) ++ jsonDumps x (lvl + 1) ++
      jsonDumpsArr xs (lvl + 1) ++ '\n' :: (indentChars lvl ++ [']']))
  | .obj [], _ => ['\x7b', '\x7d']
  | .obj ((k, v) :: kvs), lvl =>
    '\x7b' :: '\n' :: (indentChars (lvl + 1) ++ jsonQuote k ++ ':' :: ' ' ::
      (jsonDumps v (lvl + 1) ++ jsonDumpsObj kvs (lvl + 1) ++ '\n' ::
        (indentChars lvl ++ ['\x7d'])))
def jsonDumpsArr : List JVal → ℕ → List Char
  | [], _ => []
  | x :: xs, lvl =>
    ',' :: '\n' :: (indentChars lvl ++ jsonDumps x lvl ++ jsonDumpsArr xs lvl)
def jsonDumpsObj : List (String × JVal) → ℕ → List Char
  | [], _ => []
  | (k, v) :: kvs, lvl =>
    ',' :: '\n' :: (indentChars lvl ++ jsonQuote k ++ ':' :: ' ' ::
      (jsonDumps v lvl ++ jsonDumpsObj kvs lvl))
end

/-- Top-level json.dumps(data, indent=2, ensure_ascii=False). -/
def jsonDumpsTop (j : JVal) : List Char := jsonDumps j 0

/-! Part 3: the four formatters. -/

/-- YAMLFormatter.format (format_yaml.py lines 12-38). The method builds
output_data as a dict literal with generated_at = datetime.now().isoformat()
first and data second, and returns yaml.dump(output_data,
default_flow_style=False, allow_unicode=True, sort_keys=False, indent=2).
The external yaml.dump / yaml.safe_load pair is modelled structurally: dump
followed by load is the identity on these documents and sort_keys=False
keeps the declared key order, so the serialized output is represented by the
document it denotes. No operation in the method can raise. -/
def yamlFormat (now : PyDateTime) (data : JVal) : JVal :=
  .obj [("generated_at", .str (pyIsoformat now)), ("data", data)]

/-- TextFormatter.format (format_text.py lines 12-58): the list of lines the
method appends, before the final newline join. -/
def textFormatLines (data : JVal) (title : String) (now : PyDateTime) :
    Py (List String) := do
  let eq80 : String := String.mk (List.replicate 80 '=')
  let dash80 : String := String.mk (List.replicate 80 '-')
  let head : List String := [eq80, pyCenter title 80, eq80, ""]
  let hasMeta ← pyHasKey data "_metadata"
  let metaLines ←
    if hasMeta then do
      let md ← pySub data "_metadata"
      let items ← pyItems md
      pure (["METADATA", dash80] ++
        items.map (fun p => "  " ++ p.1 ++ ": " ++ pyStrFn p.2) ++ [""])
    else pure []
  let hasErr ← pyHasKey data "error"
  let errLines ←
    if hasErr then do
      let e ← pySub data "error"
      pure (["ERROR", dash80, "  " ++ pyStrFn e, ""])
    else pure []
  let jsonLines : List String :=
    ["FULL RESPONSE DATA", dash80, String.mk (jsonDumpsTop data), ""]
  let footer : List String :=
    [dash80, "Generated: " ++ pyStrftimeFooter now, eq80]
  pure (head ++ metaLines ++ errLines ++ jsonLines ++ footer)

/-- TextFormatter.format, joined with newlines as the method returns it. -/
def textFormat (data : JVal) (title : String) (now : PyDateTime) : Py String :=
  (textFormatLines data title now).map (String.intercalate "\n")

/-- The HTML template head (format_html.py lines 24-92) up to the title tag. -/
def htmlHeadA : String := "<!DOCTYPE html>
<html lang=\"en\">
<head>
    <meta charset=\"UTF-8\">
    <meta name=\"viewport\" content=\"width=device-width, initial-scale=1.0\">
    <title>"

/-- The HTML template between the two title interpolations: the style sheet
(braces appear in the output once, the f-string doubles them). -/
def htmlHeadB : String := "</title>
    <style>
        body \x7b
            font-family: 'Segoe UI', Tahoma, Geneva, Verdana, sans-serif;
            max-width: 1200px;
            margin: 0 auto;
            padding: 20px;
            background-color: #f5f5f5;
        \x7d
        .container \x7b
            background-color: white;
            border-radius: 8px;
            padding: 30px;
            box-shadow: 0 2px 4px rgba(0,0,0,0.1);
        \x7d
        h1 \x7b
            color: #2c3e50;
            border-bottom: 3px solid #3498db;
            padding-bottom: 10px;
        \x7d
        h2 \x7b
            color: #34495e;
            margin-top: 30px;
            border-left: 4px solid #3498db;
            padding-left: 15px;
        \x7d
        .metadata \x7b
            background-color: #ecf0f1;
            padding: 15px;
            border-radius: 5px;
            margin: 20px 0;
        \x7d
        .metadata p \x7b
            margin: 5px 0;
            color: #555;
        \x7d
        .json-display \x7b
            background-color: #2c3e50;
            color: #ecf0f1;
            padding: 20px;
            border-radius: 5px;
            overflow-x: auto;
            font-family: 'Courier New', monospace;
            font-size: 14px;
            line-height: 1.5;
        \x7d
        .error \x7b
            background-color: #e74c3c;
            color: white;
            padding: 15px;
            border-radius: 5px;
            margin: 20px 0;
        \x7d
        .timestamp \x7b
            color: #7f8c8d;
            font-size: 0.9em;
            margin-top: 30px;
        \x7d
    </style>
</head>
<body>
    <div class=\"container\">
        <h1>"

/-- The HTML template right after the h1 title interpolation. -/
def htmlHeadC : String := "</h1>
"

/-- Opening of the metadata block (format_html.py lines 97-100). -/
def htmlMetaOpen : String := "
        <div class=\"metadata\">
            <h2>Metadata</h2>
"

def htmlMetaClose : String := "        </div>
"

/-- One metadata line (format_html.py line 102). -/
def htmlMetaLine (k : String) (v : JVal) : String :=
  "            <p><strong>" ++ k ++ ":</strong> " ++ pyStrFn v ++ "</p>\n"

def htmlMetaLinesOf : List (String × JVal) → List Char
  | [] => []
  | (k, v) :: rest => (htmlMetaLine k v).data ++ htmlMetaLinesOf rest

/-- The error block (format_html.py lines 107-112). -/
def htmlErrA : String := "
        <div class=\"error\">
            <h2>Error</h2>
            <p>"

def htmlErrB : String := "</p>
        </div>
"

def htmlErrorBlock (e : String) : List Char :=
  htmlErrA.data ++ e.data ++ htmlErrB.data

/-- Opening of the JSON display section (format_html.py lines 115-118). -/
def htmlJsonOpen : String := "
        <h2>Full Response Data</h2>
        <div class=\"json-display\">
"

/-- Closing of the document, around the generation footer
(format_html.py lines 125-131). -/
def htmlFootA : String := "
        </div>
        <p class=\"timestamp\">Generated: "

def htmlFootB : String := "</p>
    </div>
</body>
</html>
"

/-- HTMLFormatter.format (format_html.py lines 12-133), as the character
sequence of the returned string. -/
def htmlFormat (data : JVal) (title : String) (now : PyDateTime) :
    Py (List Char) := do
  let head := htmlHeadA.data ++ title.data ++ htmlHeadB.data ++ title.data ++
    htmlHeadC.data
  let hasMeta ← pyHasKey data "_metadata"
  let metaPart ←
    if hasMeta then do
      let md ← pySub data "_metadata"
      let items ← pyItems md
      pure (htmlMetaOpen.data ++ htmlMetaLinesOf items ++ htmlMetaClose.data)
    else pure []
  let hasErr ← pyHasKey data "error"
  let errPart ←
    if hasErr then do
      let e ← pySub data "error"
      pure (htmlErrorBlock (pyStrFn e))
    else pure ([] : List Char)
  pure (head ++ metaPart ++ errPart ++ htmlJsonOpen.data ++
    "<pre>".data ++ escapeHtml (jsonDumpsTop data) ++ "</pre>".data ++
    htmlFootA.data ++ (pyStrftimeFooter now).data ++ htmlFootB.data)

/-! The spreadsheet formatter (format_excel.py). A worksheet is modelled as
the ordered list of its written cells (row, column, value); fonts, fills,
merges and column widths are presentation only and carry no cell values. A
workbook is the list of its sheets with their titles. -/

abbrev Sheet := List (ℕ × ℕ × JVal)

abbrev Workbook := List (String × Sheet)

/-- ExcelFormatter._is_timeseries_data (format_excel.py lines 38-44):
the value is a dict, has a properties key, properties is a dict and has a
timeseries key. -/
def isTimeseriesData (data : JVal) : Bool :=
  match data with
  | .obj kvs =>
    match lookupKV kvs "properties" with
    | some (.obj props) => (lookupKV props "timeseries").isSome
    | _ => false
  | _ => false

/-- The detail mapping of one entry:
entry.get('data', {}).get('instant', {}).get('details', {})
(format_excel.py line 167 and lines 109-110). -/
def instantDetailsOf (e : JVal) : Py JVal := do
  let dt ← pyGetD e "data" (.obj [])
  let ins ← pyGetD dt "instant" (.obj [])
  pyGetD ins "details" (.obj [])

/-- ExcelFormatter._extract_all_detail_keys (lines 162-169): the keys a set
accumulates over every entry, here as the concatenated key lists (the set
itself is only ever consumed through sorted()). -/
def extractAllDetailKeys : List JVal → Py (List String)
  | [] => .ok []
  | e :: rest => do
    let det ← instantDetailsOf e
    let ks ← pyKeysF det
    let more ← extractAllDetailKeys rest
    .ok (ks ++ more)

/-- sorted(details_keys) (lines 83 and 117): the distinct detail keys in
code-point order. -/
def sortedDetailKeys (ts : List JVal) : Py (List String) := do
  let ks ← extractAllDetailKeys ts
  pure (sortStrings ks.dedup)

/-- The two optional-column conditions on the first entry (lines 86-89):
truthiness of sample.get('data',{}).get('next_1_hours',{}).get('summary'),
and sample...get('details',{}).get('precipitation_amount') is not None. -/
def headerConds (sample : JVal) : Py (Bool × Bool) := do
  let dt ← pyGetD sample "data" (.obj [])
  let n1 ← pyGetD dt "next_1_hours" (.obj [])
  let sm ← pyGetN n1 "summary"
  let n1d ← pyGetD n1 "details" (.obj [])
  let pa ← pyGetN n1d "precipitation_amount"
  pure (truthy sm, !pa.isNull)

/-- The header row (lines 80-89): Time, the sorted detail keys, then the two
optional trailing columns. -/
def timeseriesHeaders (ts : List JVal) : Py (List String) := do
  let sample := ts.headD (.obj [])
  let keys ← sortedDetailKeys ts
  let conds ← headerConds sample
  pure (("Time" :: keys) ++
    (if conds.1 then ["Next 1hr Symbol"] else []) ++
    (if conds.2 then ["Next 1hr Precip (mm)"] else []))

/-- The cell values of one data row (lines 107-132): the raw time, then
instant_details.get(key, '') for each sorted key, then the optional
next-hour summary and precipitation cells when their headers are present. -/
def rowCellsFor (keys headers : List String) (entry : JVal) : Py (List JVal) := do
  let timeVal ← pyGetD entry "time" (.str "")
  let dt ← pyGetD entry "data" (.obj [])
  let ins ← pyGetD dt "instant" (.obj [])
  let det ← pyGetD ins "details" (.obj [])
  let detCells ← keys.mapM (fun k => pyGetD det k (.str ""))
  let n1 ← pyGetD dt "next_1_hours" (.obj [])
  let symCells ←
    if headers.contains "Next 1hr Symbol" then do
      let sm ← pyGetD n1 "summary" (.obj [])
      let sy ← pyGetD sm "symbol_code" (.str "")
      pure [sy]
    else pure []
  let pCells ←
    if headers.contains "Next 1hr Precip (mm)" then do
      let nd ← pyGetD n1 "details" (.obj [])
      let pa ← pyGetD nd "precipitation_amount" (.str "")
      pure [pa]
    else pure []
  pure (timeVal :: detCells ++ symCells ++ pCells)

/-- Lay one row of cell values out at a row index, columns from 1. -/
def writeRow (r : ℕ) (cells : List JVal) : Sheet :=
  cells.enum.map (fun p => (r, p.1 + 1, p.2))

/-- The data rows (lines 106-134), one per entry, rows counting up from the
first data row. -/
def dataRows (keys headers : List String) : ℕ → List JVal → Py Sheet
  | _, [] => .ok []
  | r, e :: rest => do
    let cells ← rowCellsFor keys headers e
    let more ← dataRows keys headers (r + 1) rest
    .ok (writeRow r cells ++ more)

/-- The units rows of the Units sheet (lines 153-157), sorted by parameter. -/
def unitRows : ℕ → List (String × JVal) → Sheet
  | _, [] => []
  | r, (k, v) :: rest => (r, 1, .str k) :: (r, 2, v) :: unitRows (r + 1) rest

/-- The Units sheet (lines 141-160), present only when meta.get('units') is
truthy. -/
def unitsSheets (meta : JVal) : Py Workbook := do
  let u ← pyGetN meta "units"
  if truthy u then do
    let uu ← pySub meta "units"
    let kvs ← pyItems uu
    pure [("Units",
      [(1, 1, .str "Parameter Units"), (2, 1, .str "Parameter"),
       (2, 2, .str "Unit")] ++ unitRows 3 (sortKVs kvs))]
  else pure []

/-- ExcelFormatter._format_timeseries (lines 46-160). The early return on an
empty (falsy) timeseries leaves only the renamed empty sheet. Title and
metadata cells sit at rows 1-4, the header row at row 6, data rows from
row 7. -/
def formatTimeseries (data : JVal) (title : String) : Py Workbook := do
  let properties ← pyGetD data "properties" (.obj [])
  let tsJ ← pyGetD properties "timeseries" (.arr [])
  let meta ← pyGetD properties "meta" (.obj [])
  let geometry ← pyGetD data "geometry" (.obj [])
  if truthy tsJ = false then
    pure [("Timeseries Data", [])]
  else do
    let ts ← pyList tsJ
    let coords ← pyGetD geometry "coordinates" (.arr [])
    let coordLen ← pyLen coords
    let coordStr ←
      if 2 ≤ coordLen then do
        let c1 ← pyIdx coords 1
        let c0 ← pyIdx coords 0
        pure (pyStrFn c1 ++ ", " ++ pyStrFn c0)
      else pure "N/A"
    let updated ← pyGetD meta "updated_at" (.str "N/A")
    let keys ← sortedDetailKeys ts
    let headers ← timeseriesHeaders ts
    let rows ← dataRows keys headers 7 ts
    let uSheets ← unitsSheets meta
    pure (("Timeseries Data",
      [(1, 1, .str title),
       (3, 1, .str "Location (Lat, Lon):"), (3, 2, .str coordStr),
       (4, 1, .str "Updated:"), (4, 2, updated)] ++
      (headers.enum.map fun p => (6, p.1 + 1, JVal.str p.2)) ++ rows) ::
      uSheets)

/-- The metadata key/value rows of the generic sheet (lines 193-198). -/
def kvCells : ℕ → List (String × JVal) → Sheet
  | _, [] => []
  | r, (k, v) :: rest =>
    (r, 1, .str k) :: (r, 2, .str (pyStrFn v)) :: kvCells (r + 1) rest

/-- ExcelFormatter._format_generic (lines 171-231): title at A1, optional
metadata section from row 3, optional error section, then the full response
as a JSON blob. -/
def formatGeneric (data : JVal) (title : String) : Py Workbook := do
  let hasMeta ← pyHasKey data "_metadata"
  let metaPart ←
    if hasMeta then do
      let md ← pySub data "_metadata"
      let items ← pyItems md
      pure ((3, 1, JVal.str "Metadata") :: kvCells 4 items,
        3 + 1 + items.length + 1)
    else pure (([] : Sheet), 3)
  let r1 := metaPart.2
  let errPart ←
    if (← pyHasKey data "error") then do
      let e ← pySub data "error"
      pure (([(r1, 1, JVal.str "Error"), (r1 + 1, 1, JVal.str "Error Message"),
        (r1 + 1, 2, e)] : Sheet), r1 + 3)
    else pure (([] : Sheet), r1)
  let r2 := errPart.2
  pure [("Response Data",
    (1, 1, JVal.str title) :: metaPart.1 ++ errPart.1 ++
    [(r2, 1, .str "Full Response (JSON)"),
     (r2 + 1, 1, .str (String.mk (jsonDumpsTop data)))])]

/-- ExcelFormatter.format (lines 15-36): shape-sniff, then tabular or
generic rendering (wb.save is filesystem glue outside the formatter core). -/
def excelFormat (data : JVal) (title : String) : Py Workbook :=
  if isTimeseriesData data then formatTimeseries data title
  else formatGeneric data title

/-! Well-formed input (the specification admits any mapping whose present
optional sub-keys have their documented container types; absent keys must
degrade, wrong-typed present keys are out of scope). -/

/-- The sub-key check: absent is fine, present must satisfy the predicate. -/
def keyOk (j : JVal) (k : String) (p : JVal → Bool) : Bool :=
  match j.get? k with
  | none => true
  | some v => p v

/-- Well-formedness of data.instant: a mapping whose details, when present,
is a mapping. -/
def instWFB (ins : JVal) : Bool :=
  ins.isObjB && keyOk ins "details" JVal.isObjB

/-- Well-formedness of data.next_1_hours: a mapping whose summary and
details, when present, are mappings. -/
def n1WFB (n1 : JVal) : Bool :=
  n1.isObjB && keyOk n1 "summary" JVal.isObjB &&
    keyOk n1 "details" JVal.isObjB

/-- Well-formedness of an entry data value. -/
def dataWFB (dt : JVal) : Bool :=
  dt.isObjB && keyOk dt "instant" instWFB && keyOk dt "next_1_hours" n1WFB

/-- Well-formedness of one timeseries entry. -/
def tsEntryWFB (e : JVal) : Bool :=
  e.isObjB && keyOk e "data" dataWFB

/-- Well-formedness of a timeseries value: a list of well-formed entries. -/
def tsListWFB : JVal → Bool
  | .arr es => es.all tsEntryWFB
  | _ => false

/-- Well-formedness of properties.meta. -/
def metaWFB (m : JVal) : Bool :=
  m.isObjB && keyOk m "units" JVal.isObjB

/-- Well-formedness of properties. -/
def propsWFB (props : JVal) : Bool :=
  props.isObjB && keyOk props "timeseries" tsListWFB &&
    keyOk props "meta" metaWFB

/-- Well-formedness of geometry. -/
def geoWFB (g : JVal) : Bool :=
  g.isObjB && keyOk g "coordinates" JVal.isArrB

/-- Well-formedness of a response mapping: the root is a mapping and every
present optional sub-key carries its documented container type (absent keys
are always fine; the formatters must degrade on them). -/
def WFB (d : JVal) : Bool :=
  d.isObjB &&
  keyOk d "_metadata" JVal.isObjB &&
  keyOk d "properties" propsWFB &&
  keyOk d "geometry" geoWFB

/-- Whether an entry observes a detail key: the path
data.instant.details.key is present. -/
def hasDetailKey (e : JVal) (k : String) : Bool :=
  hasPath e ["data", "instant", "details", k]

/-- All cells of a workbook. -/
def wbCells : Workbook → List (ℕ × ℕ × JVal)
  | [] => []
  | (_, cells) :: rest => cells ++ wbCells rest

/-- Whether some cell of the workbook holds exactly the given string. -/
def hasCellStr (wb : Workbook) (s : String) : Bool :=
  (wbCells wb).any fun c =>
    match c.2.2 with
    | .str t => t = s
    | _ => false

/-! Theorems: the synthetic tide generator. -/

theorem genLoop_step (fromTime toTime k : ℕ) :
    genLoop fromTime toTime (fromTime + 3600 * k) =
      if fromTime + 3600 * k ≤ toTime then
        tideEntryAt fromTime k :: genLoop fromTime toTime (fromTime + 3600 * (k + 1))
      else [] := by
  rw [genLoop]
  split
  · have h1 : ((fromTime + 3600 * k - fromTime : ℕ) : ℝ) / 3600 = (k : ℕ) := by
      rw [Nat.add_sub_cancel_left]
      push_cast
      field_simp
    rw [h1]
    have h2 : fromTime + 3600 * k + 3600 = fromTime + 3600 * (k + 1) := by ring
    rw [h2]
    rfl
  · rfl

theorem genLoop_range (fromTime toTime : ℕ) (h : fromTime ≤ toTime) :
    ∀ m k, (toTime - fromTime) / 3600 + 1 = k + m →
      genLoop fromTime toTime (fromTime + 3600 * k) =
        (List.range m).map fun i => tideEntryAt fromTime (k + i) := by
  intro m
  induction m with
  | zero =>
    intro k hk
    rw [genLoop_step]
    have hdm := Nat.div_add_mod (toTime - fromTime) 3600
    have hlt : (toTime - fromTime) % 3600 < 3600 := Nat.mod_lt _ (by norm_num)
    have : ¬ fromTime + 3600 * k ≤ toTime := by omega
    simp [this]
  | succ m ih =>
    intro k hk
    rw [genLoop_step]
    have hdm := Nat.div_add_mod (toTime - fromTime) 3600
    have hle : fromTime + 3600 * k ≤ toTime := by omega
    rw [if_pos hle, ih (k + 1) (by omega)]
    rw [List.range_succ_eq_map, List.map_cons, List.map_map]
    refine congrArg₂ _ (by simp) ?_
    refine List.map_congr_left fun i _ => ?_
    simp only [Function.comp_apply, Nat.succ_eq_add_one]
    exact congrArg (tideEntryAt fromTime) (by omega)

theorem generateSampleTideData_eq (fromTime toTime : ℕ) (h : fromTime ≤ toTime) :
    generateSampleTideData fromTime toTime =
      (List.range ((toTime - fromTime) / 3600 + 1)).map
        fun i => tideEntryAt fromTime i := by
  have h0 := genLoop_range fromTime toTime h ((toTime - fromTime) / 3600 + 1) 0 (by omega)
  simpa [generateSampleTideData] using h0

theorem tideHeight_bounds (x : ℝ) : 35 ≤ tideHeight x ∧ tideHeight x ≤ 165 := by
  have h1 := Real.neg_one_le_sin (2 * Real.pi * x / tidal_period_hours)
  have h2 := Real.sin_le_one (2 * Real.pi * x / tidal_period_hours)
  have h3 := Real.neg_one_le_sin (2 * Real.pi * x / 12.0)
  have h4 := Real.sin_le_one (2 * Real.pi * x / 12.0)
  simp only [tideHeight, mean_tide, tidal_range, mean_high_water, mean_low_water]
  norm_num
  constructor <;> nlinarith

theorem pyRound1_cases (x : ℝ) :
    pyRound1 x = ((⌊x * 10⌋ : ℤ) : ℝ) / 10 ∨
    pyRound1 x = ((⌊x * 10⌋ + 1 : ℤ) : ℝ) / 10 := by
  unfold pyRound1
  split_ifs <;> first
    | exact Or.inl rfl
    | exact Or.inr rfl

theorem pyRound1_bounds {x : ℝ} (h35 : 35 ≤ x) (h165 : x ≤ 165) :
    0 ≤ pyRound1 x ∧ pyRound1 x ≤ 200 := by
  have hy1 : (350 : ℝ) ≤ x * 10 := by linarith
  have hy2 : x * 10 ≤ (1650 : ℝ) := by linarith
  have hf1 : (350 : ℤ) ≤ ⌊x * 10⌋ := Int.le_floor.mpr (by exact_mod_cast hy1)
  have hf2 : ⌊x * 10⌋ ≤ (1650 : ℤ) := by
    have h := Int.floor_le_floor hy2
    simpa using h
  have hc1 : ((350 : ℤ) : ℝ) ≤ ((⌊x * 10⌋ : ℤ) : ℝ) := Int.cast_le.mpr hf1
  have hc2 : ((⌊x * 10⌋ : ℤ) : ℝ) ≤ ((1650 : ℤ) : ℝ) := Int.cast_le.mpr hf2
  rcases pyRound1_cases x with h | h <;> rw [h] <;> constructor <;>
    · push_cast at hc1 hc2 ⊢
      linarith

theorem tideHeight_zero : tideHeight 0 = 100 := by
  simp only [tideHeight, mean_tide, tidal_range, mean_high_water, mean_low_water,
    tidal_period_hours, mul_zero, zero_div, Real.sin_zero]
  norm_num

theorem pyRound1_hundred : pyRound1 100 = 100 := by
  have h1 : (100 : ℝ) * 10 = ((1000 : ℤ) : ℝ) := by norm_num
  unfold pyRound1
  rw [h1, Int.floor_intCast]
  norm_num

/-- C1: for every pair of timestamps fromTime ≤ toTime (epoch seconds), the
synthetic tide generator returns exactly floor of the elapsed hours plus one
entries, one at each whole-hour boundary fromTime + 3600 i, with strictly
increasing time values, and every sea_surface_height_above_chart_datum value
within [0, 200] cm. -/
theorem tide_generator_count_monotone_bounded (fromTime toTime : ℕ)
    (h : fromTime ≤ toTime) :
    (generateSampleTideData fromTime toTime).length
        = (toTime - fromTime) / 3600 + 1 ∧
    (generateSampleTideData fromTime toTime).map TideEntry.time =
      (List.range ((toTime - fromTime) / 3600 + 1)).map
        (fun i => fromTime + 3600 * i) ∧
    (generateSampleTideData fromTime toTime).Pairwise
      (fun a b => a.time < b.time) ∧
    ∀ e ∈ generateSampleTideData fromTime toTime,
      0 ≤ e.height ∧ e.height ≤ 200 := by
  rw [generateSampleTideData_eq fromTime toTime h]
  refine ⟨by simp, ?_, ?_, ?_⟩
  · rw [List.map_map]
    rfl
  · refine List.Pairwise.map _ (fun a b hab => ?_) (List.pairwise_lt_range _)
    show (tideEntryAt fromTime a).time < (tideEntryAt fromTime b).time
    simp only [tideEntryAt]
    omega
  · intro e he
    simp only [List.mem_map, List.mem_range] at he
    obtain ⟨i, _, rfl⟩ := he
    exact pyRound1_bounds (tideHeight_bounds i).1 (tideHeight_bounds i).2

theorem tide_generator_count_monotone_bounded_witness :
    (0 : ℕ) ≤ 7200 ∧
    ((generateSampleTideData 0 7200).length = (7200 - 0) / 3600 + 1 ∧
     (generateSampleTideData 0 7200).map TideEntry.time =
       (List.range ((7200 - 0) / 3600 + 1)).map (fun i => 0 + 3600 * i) ∧
     (generateSampleTideData 0 7200).Pairwise (fun a b => a.time < b.time) ∧
     ∀ e ∈ generateSampleTideData 0 7200, 0 ≤ e.height ∧ e.height ≤ 200) :=
  ⟨by decide, tide_generator_count_monotone_bounded 0 7200 (by decide)⟩

/-- C2: every generated entry i whole hours after fromTime carries the height
round(100 + 50 (sin(2 pi i / 12.42) + 0.3 sin(2 pi i / 12.0)), 1); and the
window from 0 to 7200 seconds (the 2024-01-01T00:00 to 02:00 example) yields
exactly three entries at hours 0, 1, 2 whose first height is 100.0. -/
theorem tide_generator_height_values (fromTime toTime i : ℕ)
    (hft : fromTime ≤ toTime) (hi : i ≤ (toTime - fromTime) / 3600) :
    (generateSampleTideData fromTime toTime)[i]? =
      some { time := fromTime + 3600 * i,
             height := pyRound1 (100 + 50 * (Real.sin (2 * Real.pi * i / 12.42)
               + 0.3 * Real.sin (2 * Real.pi * i / 12.0))) } ∧
    (generateSampleTideData 0 7200).map TideEntry.time = [0, 3600, 7200] ∧
    ((generateSampleTideData 0 7200).map TideEntry.height).head? = some 100 := by
  refine ⟨?_, ?_, ?_⟩
  · rw [generateSampleTideData_eq fromTime toTime hft]
    rw [List.getElem?_map, List.getElem?_range (by omega)]
    simp only [Option.map_some']
    have hh : tideHeight i = 100 + 50 * (Real.sin (2 * Real.pi * i / 12.42)
        + 0.3 * Real.sin (2 * Real.pi * i / 12.0)) := by
      simp only [tideHeight, mean_tide, tidal_range, mean_high_water,
        mean_low_water, tidal_period_hours]
      norm_num
    simp only [tideEntryAt, hh]
  · rw [generateSampleTideData_eq 0 7200 (by norm_num)]
    rfl
  · rw [generateSampleTideData_eq 0 7200 (by norm_num)]
    have h72 : (7200 - 0) / 3600 + 1 = 3 := by norm_num
    rw [h72]
    simp only [List.range_succ, List.range_zero, List.nil_append, List.cons_append,
      List.map_cons, List.map_nil, List.head?_cons, tideEntryAt]
    rw [Nat.cast_zero, tideHeight_zero, pyRound1_hundred]

theorem tide_generator_height_values_witness :
    ((0 : ℕ) ≤ 7200 ∧ (0 : ℕ) ≤ (7200 - 0) / 3600) ∧
    ((generateSampleTideData 0 7200)[0]? =
      some { time := 0 + 3600 * 0,
             height := pyRound1 (100 + 50 * (Real.sin (2 * Real.pi * (0:ℕ) / 12.42)
               + 0.3 * Real.sin (2 * Real.pi * (0:ℕ) / 12.0))) } ∧
     (generateSampleTideData 0 7200).map TideEntry.time = [0, 3600, 7200] ∧
     ((generateSampleTideData 0 7200).map TideEntry.height).head? = some 100) :=
  ⟨⟨by decide, by decide⟩, tide_generator_height_values 0 7200 0 (by decide) (by decide)⟩

/-! Theorems: the spreadsheet shape sniffing (claim C3). -/

/-- C3 counterexample: a mapping whose properties dict contains timeseries
but which has neither properties.meta.units nor geometry.coordinates still
triggers tabular mode, so tabular rendering is not triggered exactly on the
three-part special shape. -/
theorem excel_tabular_trigger_counterexample :
    isTimeseriesData (.obj [("properties", .obj [("timeseries", .arr [])])]) = true ∧
    hasPath (.obj [("properties", .obj [("timeseries", .arr [])])])
      ["properties", "meta", "units"] = false ∧
    hasPath (.obj [("properties", .obj [("timeseries", .arr [])])])
      ["geometry", "coordinates"] = false :=
  ⟨rfl, rfl, rfl⟩

/-- C3 (amended): the spreadsheet renderer switches to tabular mode exactly
when the input is a mapping whose properties value is a mapping containing
the key timeseries; properties.meta.units and geometry.coordinates play no
part in the trigger. In particular a response with no properties.timeseries
never triggers tabular mode and is rendered by the generic path. -/
theorem excel_tabular_trigger_iff (d : JVal) (title : String) :
    isTimeseriesData d = hasPath d ["properties", "timeseries"] ∧
    (hasPath d ["properties", "timeseries"] = false →
      excelFormat d title = formatGeneric d title) := by
  have hmain : isTimeseriesData d = hasPath d ["properties", "timeseries"] := by
    cases d with
    | obj kvs =>
      simp only [isTimeseriesData, hasPath, getPath?, JVal.get?]
      cases h : lookupKV kvs "properties" with
      | none => simp
      | some v =>
        cases v <;> simp [getPath?, JVal.get?]
        rename_i props
        cases lookupKV props "timeseries" <;> simp
    | null => rfl
    | bool b => rfl
    | int n => rfl
    | num q => rfl
    | str s => rfl
    | arr xs => rfl
  refine ⟨hmain, fun hfalse => ?_⟩
  have : isTimeseriesData d = false := by rw [hmain, hfalse]
  simp [excelFormat, this]

/-! Theorems: the code-point string order and the key sort. -/

theorem charsLe_total : ∀ as bs, charsLe as bs = true ∨ charsLe bs as = true := by
  intro as
  induction as with
  | nil => intro bs; left; rfl
  | cons a as ih =>
    intro bs
    cases bs with
    | nil => right; rfl
    | cons b bs =>
      simp only [charsLe]
      by_cases h1 : a.toNat < b.toNat
      · left; simp [h1]
      · by_cases h2 : b.toNat < a.toNat
        · right; simp [h1, h2]
        · simp only [h1, h2, if_false]
          exact ih bs

theorem charsLe_trans :
    ∀ as bs cs, charsLe as bs = true → charsLe bs cs = true →
      charsLe as cs = true := by
  intro as
  induction as with
  | nil => intro bs cs _ _; rfl
  | cons a as ih =>
    intro bs cs h1 h2
    cases bs with
    | nil => simp [charsLe] at h1
    | cons b bs =>
      cases cs with
      | nil => simp [charsLe] at h2
      | cons c cs =>
        simp only [charsLe] at h1 h2 ⊢
        by_cases hab : a.toNat < b.toNat
        · by_cases hbc : b.toNat < c.toNat
          · simp [show a.toNat < c.toNat by omega]
          · by_cases hcb : c.toNat < b.toNat
            · simp [hbc, hcb] at h2
            · simp [show a.toNat < c.toNat by omega]
        · by_cases hba : b.toNat < a.toNat
          · simp [hab, hba] at h1
          · by_cases hbc : b.toNat < c.toNat
            · simp [show a.toNat < c.toNat by omega]
            · by_cases hcb : c.toNat < b.toNat
              · simp [hbc, hcb] at h2
              · simp only [hab, hba, if_false] at h1
                simp only [hbc, hcb, if_false] at h2
                have hac : ¬ a.toNat < c.toNat := by omega
                have hca : ¬ c.toNat < a.toNat := by omega
                simp only [hac, hca, if_false]
                exact ih bs cs h1 h2

theorem strLeB_total (a b : String) : strLeB a b = true ∨ strLeB b a = true :=
  charsLe_total a.data b.data

theorem strLeB_trans {a b c : String} (h1 : strLeB a b = true)
    (h2 : strLeB b c = true) : strLeB a c = true :=
  charsLe_trans a.data b.data c.data h1 h2

theorem mem_insertStr (x y : String) (l : List String) :
    y ∈ insertStr x l ↔ y = x ∨ y ∈ l := by
  induction l with
  | nil => simp [insertStr]
  | cons z zs ih =>
    simp only [insertStr]
    split_ifs
    · simp
    · simp only [List.mem_cons, ih]
      tauto

theorem sorted_insertStr (x : String) (l : List String)
    (h : l.Pairwise (fun a b => strLeB a b = true)) :
    (insertStr x l).Pairwise (fun a b => strLeB a b = true) := by
  induction l with
  | nil => simp [insertStr]
  | cons y ys ih =>
    rw [List.pairwise_cons] at h
    obtain ⟨hy, hys⟩ := h
    simp only [insertStr]
    split_ifs with hxy
    · rw [List.pairwise_cons]
      refine ⟨?_, List.pairwise_cons.mpr ⟨hy, hys⟩⟩
      intro z hz
      rcases List.mem_cons.mp hz with rfl | hz2
      · exact hxy
      · exact strLeB_trans hxy (hy z hz2)
    · rw [List.pairwise_cons]
      refine ⟨?_, ih hys⟩
      intro z hz
      rcases (mem_insertStr x z ys).mp hz with rfl | hz2
      · rcases strLeB_total z y with h | h
        · exact absurd h hxy
        · exact h
      · exact hy z hz2

theorem sorted_sortStrings (l : List String) :
    (sortStrings l).Pairwise (fun a b => strLeB a b = true) := by
  induction l with
  | nil => exact List.Pairwise.nil
  | cons x xs ih => exact sorted_insertStr x (sortStrings xs) ih

theorem mem_sortStrings (y : String) (l : List String) :
    y ∈ sortStrings l ↔ y ∈ l := by
  induction l with
  | nil => simp [sortStrings]
  | cons x xs ih =>
    simp only [sortStrings, mem_insertStr, ih, List.mem_cons]

/-! Theorems: well-formedness unfolding helpers. -/

theorem py_bind_ok {α β : Type} (a : α) (f : α → Py β) :
    (Except.ok a : Py α) >>= f = f a := rfl

theorem isObjB_exists {j : JVal} (h : j.isObjB = true) :
    ∃ kvs, j = .obj kvs := by
  cases j <;> first
    | exact ⟨_, rfl⟩
    | simp [JVal.isObjB] at h

theorem isArrB_exists {j : JVal} (h : j.isArrB = true) :
    ∃ xs, j = .arr xs := by
  cases j <;> first
    | exact ⟨_, rfl⟩
    | simp [JVal.isArrB] at h

theorem keyOk_lookup {kvs : List (String × JVal)} {k : String} {p : JVal → Bool}
    (h : keyOk (.obj kvs) k p = true) :
    ∀ v, lookupKV kvs k = some v → p v = true := by
  intro v hv
  simpa [keyOk, JVal.get?, hv] using h

theorem instantDetailsOf_ok {e : JVal} (h : tsEntryWFB e = true) :
    ∃ fields, instantDetailsOf e = .ok (.obj fields) ∧
      ∀ k, (lookupKV fields k).isSome = hasDetailKey e k := by
  simp only [tsEntryWFB, Bool.and_eq_true] at h
  obtain ⟨he, hdata⟩ := h
  obtain ⟨ekvs, rfl⟩ := isObjB_exists he
  simp only [instantDetailsOf, pyGetD, py_bind_ok]
  cases hd : lookupKV ekvs "data" with
  | none =>
    refine ⟨[], rfl, fun k => ?_⟩
    simp [hasDetailKey, hasPath, getPath?, JVal.get?, hd, lookupKV]
  | some dv =>
    have hdv : dataWFB dv = true := keyOk_lookup hdata dv hd
    simp only [dataWFB, Bool.and_eq_true] at hdv
    obtain ⟨⟨hdvo, hinst⟩, _hn1⟩ := hdv
    obtain ⟨dkvs, rfl⟩ := isObjB_exists hdvo
    simp only [Option.getD_some, pyGetD, py_bind_ok]
    cases hi : lookupKV dkvs "instant" with
    | none =>
      refine ⟨[], rfl, fun k => ?_⟩
      simp [hasDetailKey, hasPath, getPath?, JVal.get?, hd, hi, lookupKV]
    | some iv =>
      have hiv : instWFB iv = true := keyOk_lookup hinst iv hi
      simp only [instWFB, Bool.and_eq_true] at hiv
      obtain ⟨hivo, hdet⟩ := hiv
      obtain ⟨ikvs, rfl⟩ := isObjB_exists hivo
      simp only [Option.getD_some, pyGetD, py_bind_ok]
      cases hde : lookupKV ikvs "details" with
      | none =>
        refine ⟨[], rfl, fun k => ?_⟩
        simp [hasDetailKey, hasPath, getPath?, JVal.get?, hd, hi, hde, lookupKV]
      | some dev =>
        have hdev : JVal.isObjB dev = true := keyOk_lookup hdet dev hde
        obtain ⟨defields, rfl⟩ := isObjB_exists hdev
        refine ⟨defields, rfl, fun k => ?_⟩
        simp only [hasDetailKey, hasPath, getPath?, JVal.get?, hd, hi, hde]
        cases lookupKV defields k <;> simp

theorem lookupKV_isSome_iff (kvs : List (String × JVal)) (k : String) :
    (lookupKV kvs k).isSome = true ↔ k ∈ kvs.map Prod.fst := by
  induction kvs with
  | nil => simp [lookupKV]
  | cons p ps ih =>
    obtain ⟨k2, v⟩ := p
    simp only [lookupKV, List.map_cons, List.mem_cons]
    split_ifs with hk
    · simp [hk]
    · simp only [ih]
      constructor
      · exact Or.inr
      · rintro (rfl | hmem)
        · exact absurd rfl hk
        · exact hmem

theorem extractAllDetailKeys_ok {ts : List JVal}
    (h : ∀ e ∈ ts, tsEntryWFB e = true) :
    ∃ ks, extractAllDetailKeys ts = .ok ks ∧
      ∀ k, k ∈ ks ↔ ∃ e ∈ ts, hasDetailKey e k = true := by
  induction ts with
  | nil => exact ⟨[], rfl, by simp⟩
  | cons e rest ih =>
    obtain ⟨dfields, hdet, hkeys⟩ :=
      instantDetailsOf_ok (h e (List.mem_cons_self e rest))
    obtain ⟨ks, hks, hmem⟩ := ih (fun x hx => h x (List.mem_cons_of_mem e hx))
    refine ⟨dfields.map Prod.fst ++ ks, ?_, ?_⟩
    · simp [extractAllDetailKeys, hdet, py_bind_ok, pyKeysF, hks]
    · intro k
      simp only [List.mem_append, hmem, List.mem_cons]
      constructor
      · rintro (hk | ⟨e2, he2, hd2⟩)
        · refine ⟨e, Or.inl rfl, ?_⟩
          rw [← hkeys k]
          rwa [lookupKV_isSome_iff]
        · exact ⟨e2, Or.inr he2, hd2⟩
      · rintro ⟨e2, (rfl | he2), hd2⟩
        · left
          rw [← lookupKV_isSome_iff, hkeys k]
          exact hd2
        · exact Or.inr ⟨e2, he2, hd2⟩

theorem sortedDetailKeys_ok {ts : List JVal}
    (h : ∀ e ∈ ts, tsEntryWFB e = true) :
    ∃ keys, sortedDetailKeys ts = .ok keys ∧
      keys.Pairwise (fun a b => strLeB a b = true) ∧
      ∀ k, k ∈ keys ↔ ∃ e ∈ ts, hasDetailKey e k = true := by
  obtain ⟨ks, hks, hmem⟩ := extractAllDetailKeys_ok h
  refine ⟨sortStrings ks.dedup, ?_, sorted_sortStrings _, fun k => ?_⟩
  · simp [sortedDetailKeys, hks, py_bind_ok]
  · rw [mem_sortStrings, List.mem_dedup, hmem]

theorem truthy_getD_null {o : Option JVal}
    (h : truthy (o.getD .null) = true) : o.isSome = true := by
  cases o with
  | none => simp [truthy] at h
  | some v => rfl

theorem headerConds_ok {sample : JVal} (h : tsEntryWFB sample = true) :
    ∃ c1 c2, headerConds sample = .ok (c1, c2) ∧
      (c1 = true → hasPath sample ["data", "next_1_hours", "summary"] = true) ∧
      (c2 = true →
        hasPath sample ["data", "next_1_hours", "details",
          "precipitation_amount"] = true) := by
  simp only [tsEntryWFB, Bool.and_eq_true] at h
  obtain ⟨he, hdata⟩ := h
  obtain ⟨ekvs, rfl⟩ := isObjB_exists he
  simp only [headerConds, pyGetD, pyGetN, py_bind_ok]
  cases hd : lookupKV ekvs "data" with
  | none =>
    exact ⟨false, false, rfl, by simp, by simp⟩
  | some dv =>
    have hdv : dataWFB dv = true := keyOk_lookup hdata dv hd
    simp only [dataWFB, Bool.and_eq_true] at hdv
    obtain ⟨⟨hdvo, _hinst⟩, hn1⟩ := hdv
    obtain ⟨dkvs, rfl⟩ := isObjB_exists hdvo
    simp only [Option.getD_some, pyGetD, pyGetN, py_bind_ok]
    cases hn : lookupKV dkvs "next_1_hours" with
    | none =>
      exact ⟨false, false, rfl, by simp, by simp⟩
    | some nv =>
      have hnv : n1WFB nv = true := keyOk_lookup hn1 nv hn
      simp only [n1WFB, Bool.and_eq_true] at hnv
      obtain ⟨⟨hnvo, _hsum⟩, hdet⟩ := hnv
      obtain ⟨nkvs, rfl⟩ := isObjB_exists hnvo
      simp only [Option.getD_some, pyGetD, pyGetN, py_bind_ok]
      cases hnd : lookupKV nkvs "details" with
      | none =>
        refine ⟨_, false, rfl, fun hc1 => ?_, by simp⟩
        have hs := truthy_getD_null hc1
        simp only [hasPath, getPath?, JVal.get?, hd, hn]
        cases hsm : lookupKV nkvs "summary" with
        | none => rw [hsm] at hs; simp at hs
        | some s => simp
      | some ndv =>
        have hndv : JVal.isObjB ndv = true := keyOk_lookup hdet ndv hnd
        obtain ⟨ndkvs, rfl⟩ := isObjB_exists hndv
        simp only [Option.getD_some, pyGetN, py_bind_ok]
        refine ⟨_, _, rfl, fun hc1 => ?_, fun hc2 => ?_⟩
        · have hs := truthy_getD_null hc1
          simp only [hasPath, getPath?, JVal.get?, hd, hn]
          cases hsm : lookupKV nkvs "summary" with
          | none => rw [hsm] at hs; simp at hs
          | some s => simp
        · simp only [hasPath, getPath?, JVal.get?, hd, hn, hnd]
          cases hpa : lookupKV ndkvs "precipitation_amount" with
          | none => rw [hpa] at hc2; simp [JVal.isNull] at hc2
          | some v => simp

theorem pyGetD_objD {kvs : List (String × JVal)} {p : JVal → Bool} {k : String}
    (hk : keyOk (.obj kvs) k p = true)
    (hp : ∀ v, p v = true → v.isObjB = true) :
    ∃ fields, pyGetD (.obj kvs) k (.obj []) = .ok (.obj fields) ∧
      (fields = [] ∨ p (.obj fields) = true) := by
  simp only [pyGetD]
  cases h : lookupKV kvs k with
  | none => exact ⟨[], rfl, Or.inl rfl⟩
  | some v =>
    have hv := keyOk_lookup hk v h
    have hobj := hp v hv
    obtain ⟨fields, rfl⟩ := isObjB_exists hobj
    exact ⟨fields, rfl, Or.inr hv⟩

theorem mapM_pyGetD (dfields : List (String × JVal)) (keys : List String)
    (d : JVal) :
    keys.mapM (fun k => pyGetD (.obj dfields) k d) =
      .ok (keys.map fun k => (lookupKV dfields k).getD d) := by
  induction keys with
  | nil => rfl
  | cons k ks ih =>
    rw [List.mapM_cons, List.map_cons]
    simp only [pyGetD, py_bind_ok] at ih ⊢
    rw [ih]
    rfl

theorem rowCellsFor_ok {e : JVal} (h : tsEntryWFB e = true)
    (keys headers : List String) :
    ∃ tv dfields symCells pCells,
      (∀ k, (lookupKV dfields k).isSome = hasDetailKey e k) ∧
      rowCellsFor keys headers e = .ok (tv ::
        ((keys.map fun k => (lookupKV dfields k).getD (.str "")) ++
          symCells ++ pCells)) := by
  have h0 := h
  simp only [tsEntryWFB, Bool.and_eq_true] at h
  obtain ⟨he, hdata⟩ := h
  obtain ⟨ekvs, rfl⟩ := isObjB_exists he
  obtain ⟨dfields0, hdet0, hkeys0⟩ := instantDetailsOf_ok h0
  obtain ⟨dkvs, hdt, hdp⟩ := pyGetD_objD hdata (fun v hv => by
    simp only [dataWFB, Bool.and_eq_true] at hv
    exact hv.1.1)
  have hinstk : keyOk (.obj dkvs) "instant" instWFB = true := by
    rcases hdp with rfl | hdp
    · rfl
    · simp only [dataWFB, Bool.and_eq_true] at hdp
      exact hdp.1.2
  have hn1k : keyOk (.obj dkvs) "next_1_hours" n1WFB = true := by
    rcases hdp with rfl | hdp
    · rfl
    · simp only [dataWFB, Bool.and_eq_true] at hdp
      exact hdp.2
  obtain ⟨ikvs, hins, hip⟩ := pyGetD_objD hinstk (fun v hv => by
    simp only [instWFB, Bool.and_eq_true] at hv
    exact hv.1)
  have hdetk : keyOk (.obj ikvs) "details" JVal.isObjB = true := by
    rcases hip with rfl | hip
    · rfl
    · simp only [instWFB, Bool.and_eq_true] at hip
      exact hip.2
  obtain ⟨dekvs, hdet, _⟩ := pyGetD_objD hdetk (fun v hv => hv)
  obtain ⟨nkvs, hn1, hnp⟩ := pyGetD_objD hn1k (fun v hv => by
    simp only [n1WFB, Bool.and_eq_true] at hv
    exact hv.1.1)
  have hsumk : keyOk (.obj nkvs) "summary" JVal.isObjB = true := by
    rcases hnp with rfl | hnp
    · rfl
    · simp only [n1WFB, Bool.and_eq_true] at hnp
      exact hnp.1.2
  have hn1dk : keyOk (.obj nkvs) "details" JVal.isObjB = true := by
    rcases hnp with rfl | hnp
    · rfl
    · simp only [n1WFB, Bool.and_eq_true] at hnp
      exact hnp.2
  obtain ⟨smkvs, hsm, _⟩ := pyGetD_objD hsumk (fun v hv => hv)
  obtain ⟨ndkvs, hnd, _⟩ := pyGetD_objD hn1dk (fun v hv => hv)
  have hchain : instantDetailsOf (.obj ekvs) = .ok (.obj dekvs) := by
    simp only [instantDetailsOf, hdt, py_bind_ok, hins, hdet]
  have hdeq : JVal.obj dekvs = JVal.obj dfields0 := by
    rw [hchain] at hdet0
    injection hdet0
  have hkeys : ∀ k, (lookupKV dekvs k).isSome = hasDetailKey (.obj ekvs) k := by
    intro k
    have hq : dekvs = dfields0 := by injection hdeq
    rw [hq]
    exact hkeys0 k
  have htv : pyGetD (.obj ekvs) "time" (.str "") =
      .ok ((lookupKV ekvs "time").getD (.str "")) := rfl
  have hsy : pyGetD (.obj smkvs) "symbol_code" (.str "") =
      .ok ((lookupKV smkvs "symbol_code").getD (.str "")) := rfl
  have hpa : pyGetD (.obj ndkvs) "precipitation_amount" (.str "") =
      .ok ((lookupKV ndkvs "precipitation_amount").getD (.str "")) := rfl
  refine ⟨(lookupKV ekvs "time").getD (.str ""), dekvs,
    (if headers.contains "Next 1hr Symbol" then
      [(lookupKV smkvs "symbol_code").getD (.str "")] else []),
    (if headers.contains "Next 1hr Precip (mm)" then
      [(lookupKV ndkvs "precipitation_amount").getD (.str "")] else []),
    hkeys, ?_⟩
  simp only [rowCellsFor, htv, py_bind_ok, hdt, hins, hdet, mapM_pyGetD, hn1,
    hsm, hnd, hsy, hpa]
  cases headers.contains "Next 1hr Symbol" <;>
    cases headers.contains "Next 1hr Precip (mm)" <;>
      · simp [py_bind_ok, hsm, hsy, hnd, hpa]
        rfl

/-- C4: in tabular mode, for a nonempty well-formed timeseries the header
row is exactly Time, then the distinct detail keys observed across the whole
series in ascending code-point order, then Next 1hr Symbol and Next 1hr
Precip (mm), each appended only if the first entry carries the matching
next_1_hours field; an entry missing a union key renders the empty-string
cell for it rather than an error; and the two-entry series with detail keys
a,b and b,c yields exactly the columns Time, a, b, c. -/
theorem excel_header_row_spec (ts : List JVal)
    (hwf : ∀ e ∈ ts, tsEntryWFB e = true) (hne : ts ≠ []) :
    (∃ keys c1 c2,
      sortedDetailKeys ts = .ok keys ∧
      headerConds (ts.headD (.obj [])) = .ok (c1, c2) ∧
      timeseriesHeaders ts = .ok (("Time" :: keys) ++
        (if c1 then ["Next 1hr Symbol"] else []) ++
        (if c2 then ["Next 1hr Precip (mm)"] else [])) ∧
      keys.Pairwise (fun a b => strLeB a b = true) ∧
      (∀ k, k ∈ keys ↔ ∃ e ∈ ts, hasDetailKey e k = true) ∧
      (c1 = true →
        hasPath (ts.headD (.obj [])) ["data", "next_1_hours", "summary"] = true) ∧
      (c2 = true →
        hasPath (ts.headD (.obj []))
          ["data", "next_1_hours", "details", "precipitation_amount"] = true) ∧
      (∀ e ∈ ts, ∀ headers, ∃ tv dfields symCells pCells,
        rowCellsFor keys headers e = .ok (tv ::
          ((keys.map fun k => (lookupKV dfields k).getD (.str "")) ++
            symCells ++ pCells)) ∧
        ∀ k ∈ keys, hasDetailKey e k = false →
          (lookupKV dfields k).getD (.str "") = .str "")) ∧
    timeseriesHeaders
      [.obj [("data", .obj [("instant", .obj [("details",
         .obj [("a", .int 1), ("b", .int 2)])])])],
       .obj [("data", .obj [("instant", .obj [("details",
         .obj [("b", .int 3), ("c", .int 4)])])])]] =
      .ok ["Time", "a", "b", "c"] := by
  obtain ⟨keys, hkeys, hsorted, hmem⟩ := sortedDetailKeys_ok hwf
  have hsample : tsEntryWFB (ts.headD (.obj [])) = true := by
    cases ts with
    | nil => exact absurd rfl hne
    | cons x rest => exact hwf x (List.mem_cons_self x rest)
  obtain ⟨c1, c2, hconds, himp1, himp2⟩ := headerConds_ok hsample
  refine ⟨⟨keys, c1, c2, hkeys, hconds, ?_, hsorted, hmem, himp1, himp2, ?_⟩, ?_⟩
  · simp only [timeseriesHeaders, hkeys, py_bind_ok, hconds]
    rfl
  · intro e he headers
    obtain ⟨tv, dfields, symCells, pCells, hk, hrow⟩ :=
      rowCellsFor_ok (hwf e he) keys headers
    refine ⟨tv, dfields, symCells, pCells, hrow, ?_⟩
    intro k _ hfalse
    have hks := hk k
    rw [hfalse] at hks
    cases hl : lookupKV dfields k with
    | none => rfl
    | some v => rw [hl] at hks; simp at hks
  · rfl

theorem excel_header_row_spec_witness :
    (∀ e ∈ ([.obj []] : List JVal), tsEntryWFB e = true) ∧
    (([.obj []] : List JVal) ≠ []) ∧
    ((∃ keys c1 c2,
      sortedDetailKeys ([.obj []] : List JVal) = .ok keys ∧
      headerConds (([.obj []] : List JVal).headD (.obj [])) = .ok (c1, c2) ∧
      timeseriesHeaders ([.obj []] : List JVal) = .ok (("Time" :: keys) ++
        (if c1 then ["Next 1hr Symbol"] else []) ++
        (if c2 then ["Next 1hr Precip (mm)"] else [])) ∧
      keys.Pairwise (fun a b => strLeB a b = true) ∧
      (∀ k, k ∈ keys ↔ ∃ e ∈ ([.obj []] : List JVal), hasDetailKey e k = true) ∧
      (c1 = true →
        hasPath (([.obj []] : List JVal).headD (.obj []))
          ["data", "next_1_hours", "summary"] = true) ∧
      (c2 = true →
        hasPath (([.obj []] : List JVal).headD (.obj []))
          ["data", "next_1_hours", "details", "precipitation_amount"] = true) ∧
      (∀ e ∈ ([.obj []] : List JVal), ∀ headers,
        ∃ tv dfields symCells pCells,
        rowCellsFor keys headers e = .ok (tv ::
          ((keys.map fun k => (lookupKV dfields k).getD (.str "")) ++
            symCells ++ pCells)) ∧
        ∀ k ∈ keys, hasDetailKey e k = false →
          (lookupKV dfields k).getD (.str "") = .str "")) ∧
    timeseriesHeaders
      [.obj [("data", .obj [("instant", .obj [("details",
         .obj [("a", .int 1), ("b", .int 2)])])])],
       .obj [("data", .obj [("instant", .obj [("details",
         .obj [("b", .int 3), ("c", .int 4)])])])]] =
      .ok ["Time", "a", "b", "c"]) :=
  ⟨by decide, List.cons_ne_nil _ _,
    excel_header_row_spec [.obj []] (by decide) (List.cons_ne_nil _ _)⟩

/-! Theorems: structural success lemmas for the text and document
formatters on well-formed input. -/

theorem textFormatLines_ok {dkvs : List (String × JVal)} (title : String)
    (now : PyDateTime)
    (hm : keyOk (.obj dkvs) "_metadata" JVal.isObjB = true) :
    ∃ metaLines errLines,
      textFormatLines (.obj dkvs) title now = .ok
        ([String.mk (List.replicate 80 '='), pyCenter title 80,
          String.mk (List.replicate 80 '='), ""] ++ metaLines ++ errLines ++
         ["FULL RESPONSE DATA", String.mk (List.replicate 80 '-'),
          String.mk (jsonDumpsTop (.obj dkvs)), ""] ++
         [String.mk (List.replicate 80 '-'),
          "Generated: " ++ pyStrftimeFooter now,
          String.mk (List.replicate 80 '=')]) ∧
      (lookupKV dkvs "_metadata" = none → metaLines = []) ∧
      (∀ mkvs, lookupKV dkvs "_metadata" = some (.obj mkvs) →
        metaLines = ["METADATA", String.mk (List.replicate 80 '-')] ++
          mkvs.map (fun p => "  " ++ p.1 ++ ": " ++ pyStrFn p.2) ++ [""]) ∧
      (lookupKV dkvs "error" = none → errLines = []) ∧
      (∀ ev, lookupKV dkvs "error" = some ev →
        errLines = ["ERROR", String.mk (List.replicate 80 '-'),
          "  " ++ pyStrFn ev, ""]) := by
  cases hmd : lookupKV dkvs "_metadata" with
  | none =>
    cases herr : lookupKV dkvs "error" with
    | none =>
      refine ⟨[], [], ?_, fun _ => rfl, ?_, fun _ => rfl, ?_⟩
      · simp only [textFormatLines, pyHasKey, py_bind_ok, hmd, herr]
        rfl
      · intro mkvs hx; cases hx
      · intro ev hx; cases hx
    | some ev =>
      refine ⟨[], ["ERROR", String.mk (List.replicate 80 '-'),
        "  " ++ pyStrFn ev, ""], ?_, fun _ => rfl, ?_, ?_, ?_⟩
      · simp only [textFormatLines, pyHasKey, py_bind_ok, hmd, herr, pySub]
        rfl
      · intro mkvs hx; cases hx
      · intro hx; cases hx
      · intro ev2 hx
        cases hx
        rfl
  | some mv =>
    have hmv : JVal.isObjB mv = true := keyOk_lookup hm mv hmd
    obtain ⟨mkvs, rfl⟩ := isObjB_exists hmv
    cases herr : lookupKV dkvs "error" with
    | none =>
      refine ⟨["METADATA", String.mk (List.replicate 80 '-')] ++
        mkvs.map (fun p => "  " ++ p.1 ++ ": " ++ pyStrFn p.2) ++ [""], [],
        ?_, ?_, ?_, fun _ => rfl, ?_⟩
      · simp only [textFormatLines, pyHasKey, py_bind_ok, hmd, herr, pySub,
          pyItems]
        rfl
      · intro hx; cases hx
      · intro mkvs2 hx
        cases hx
        rfl
      · intro ev hx; cases hx
    | some ev =>
      refine ⟨["METADATA", String.mk (List.replicate 80 '-')] ++
        mkvs.map (fun p => "  " ++ p.1 ++ ": " ++ pyStrFn p.2) ++ [""],
        ["ERROR", String.mk (List.replicate 80 '-'), "  " ++ pyStrFn ev, ""],
        ?_, ?_, ?_, ?_, ?_⟩
      · simp only [textFormatLines, pyHasKey, py_bind_ok, hmd, herr, pySub,
          pyItems]
        rfl
      · intro hx; cases hx
      · intro mkvs2 hx
        cases hx
        rfl
      · intro hx; cases hx
      · intro ev2 hx
        cases hx
        rfl

theorem htmlFormat_ok {dkvs : List (String × JVal)} (title : String)
    (now : PyDateTime)
    (hm : keyOk (.obj dkvs) "_metadata" JVal.isObjB = true) :
    ∃ metaPart errPart,
      htmlFormat (.obj dkvs) title now = .ok (
        htmlHeadA.data ++ title.data ++ htmlHeadB.data ++ title.data ++
        htmlHeadC.data ++ metaPart ++ errPart ++ htmlJsonOpen.data ++
        "<pre>".data ++ escapeHtml (jsonDumpsTop (.obj dkvs)) ++
        "</pre>".data ++ htmlFootA.data ++ (pyStrftimeFooter now).data ++
        htmlFootB.data) ∧
      (lookupKV dkvs "_metadata" = none → metaPart = []) ∧
      (∀ mkvs, lookupKV dkvs "_metadata" = some (.obj mkvs) →
        metaPart = htmlMetaOpen.data ++ htmlMetaLinesOf mkvs ++
          htmlMetaClose.data) ∧
      (lookupKV dkvs "error" = none → errPart = []) ∧
      (∀ ev, lookupKV dkvs "error" = some ev →
        errPart = htmlErrorBlock (pyStrFn ev)) := by
  cases hmd : lookupKV dkvs "_metadata" with
  | none =>
    cases herr : lookupKV dkvs "error" with
    | none =>
      refine ⟨[], [], ?_, fun _ => rfl, ?_, fun _ => rfl, ?_⟩
      · simp only [htmlFormat, pyHasKey, py_bind_ok, hmd, herr]
        rfl
      · intro mkvs hx; cases hx
      · intro ev hx; cases hx
    | some ev =>
      refine ⟨[], htmlErrorBlock (pyStrFn ev), ?_, fun _ => rfl, ?_, ?_, ?_⟩
      · simp only [htmlFormat, pyHasKey, py_bind_ok, hmd, herr, pySub]
        rfl
      · intro mkvs hx; cases hx
      · intro hx; cases hx
      · intro ev2 hx
        cases hx
        rfl
  | some mv =>
    have hmv : JVal.isObjB mv = true := keyOk_lookup hm mv hmd
    obtain ⟨mkvs, rfl⟩ := isObjB_exists hmv
    cases herr : lookupKV dkvs "error" with
    | none =>
      refine ⟨htmlMetaOpen.data ++ htmlMetaLinesOf mkvs ++ htmlMetaClose.data,
        [], ?_, ?_, ?_, fun _ => rfl, ?_⟩
      · simp only [htmlFormat, pyHasKey, py_bind_ok, hmd, herr, pySub, pyItems]
        rfl
      · intro hx; cases hx
      · intro mkvs2 hx
        cases hx
        rfl
      · intro ev hx; cases hx
    | some ev =>
      refine ⟨htmlMetaOpen.data ++ htmlMetaLinesOf mkvs ++ htmlMetaClose.data,
        htmlErrorBlock (pyStrFn ev), ?_, ?_, ?_, ?_, ?_⟩
      · simp only [htmlFormat, pyHasKey, py_bind_ok, hmd, herr, pySub, pyItems]
        rfl
      · intro hx; cases hx
      · intro mkvs2 hx
        cases hx
        rfl
      · intro hx; cases hx
      · intro ev2 hx
        cases hx
        rfl

theorem formatGeneric_ok {dkvs : List (String × JVal)} (title : String)
    (hm : keyOk (.obj dkvs) "_metadata" JVal.isObjB = true) :
    ∃ metaCells errCells r1 r2,
      formatGeneric (.obj dkvs) title = .ok [("Response Data",
        (1, 1, JVal.str title) :: metaCells ++ errCells ++
        [(r2, 1, .str "Full Response (JSON)"),
         (r2 + 1, 1, .str (String.mk (jsonDumpsTop (.obj dkvs))))])] ∧
      (lookupKV dkvs "_metadata" = none → metaCells = []) ∧
      (∀ mkvs, lookupKV dkvs "_metadata" = some (.obj mkvs) →
        metaCells = (3, 1, JVal.str "Metadata") :: kvCells 4 mkvs) ∧
      (lookupKV dkvs "error" = none → errCells = []) ∧
      (∀ ev, lookupKV dkvs "error" = some ev →
        errCells = [(r1, 1, JVal.str "Error"),
          (r1 + 1, 1, JVal.str "Error Message"), (r1 + 1, 2, ev)]) := by
  cases hmd : lookupKV dkvs "_metadata" with
  | none =>
    cases herr : lookupKV dkvs "error" with
    | none =>
      refine ⟨[], [], 3, 3, ?_, fun _ => rfl, ?_, fun _ => rfl, ?_⟩
      · simp only [formatGeneric, pyHasKey, py_bind_ok, hmd, herr]
        rfl
      · intro mkvs hx; cases hx
      · intro ev hx; cases hx
    | some ev =>
      refine ⟨[], [(3, 1, JVal.str "Error"), (4, 1, JVal.str "Error Message"),
        (4, 2, ev)], 3, 6, ?_, fun _ => rfl, ?_, ?_, ?_⟩
      · simp only [formatGeneric, pyHasKey, py_bind_ok, hmd, herr, pySub]
        rfl
      · intro mkvs hx; cases hx
      · intro hx; cases hx
      · intro ev2 hx
        cases hx
        rfl
  | some mv =>
    have hmv : JVal.isObjB mv = true := keyOk_lookup hm mv hmd
    obtain ⟨mkvs, rfl⟩ := isObjB_exists hmv
    cases herr : lookupKV dkvs "error" with
    | none =>
      refine ⟨(3, 1, JVal.str "Metadata") :: kvCells 4 mkvs, [],
        3 + 1 + mkvs.length + 1, 3 + 1 + mkvs.length + 1, ?_, ?_, ?_,
        fun _ => rfl, ?_⟩
      · simp only [formatGeneric, pyHasKey, py_bind_ok, hmd, herr, pySub,
          pyItems]
        rfl
      · intro hx; cases hx
      · intro mkvs2 hx
        cases hx
        rfl
      · intro ev hx; cases hx
    | some ev =>
      refine ⟨(3, 1, JVal.str "Metadata") :: kvCells 4 mkvs,
        [(3 + 1 + mkvs.length + 1, 1, JVal.str "Error"),
         (3 + 1 + mkvs.length + 1 + 1, 1, JVal.str "Error Message"),
         (3 + 1 + mkvs.length + 1 + 1, 2, ev)],
        3 + 1 + mkvs.length + 1, 3 + 1 + mkvs.length + 1 + 3, ?_, ?_, ?_,
        ?_, ?_⟩
      · simp only [formatGeneric, pyHasKey, py_bind_ok, hmd, herr, pySub,
          pyItems]
        rfl
      · intro hx; cases hx
      · intro mkvs2 hx
        cases hx
        rfl
      · intro hx; cases hx
      · intro ev2 hx
        cases hx
        rfl

theorem dataRows_ok {es : List JVal} (h : ∀ e ∈ es, tsEntryWFB e = true)
    (keys headers : List String) :
    ∀ r, ∃ sh, dataRows keys headers r es = .ok sh := by
  induction es with
  | nil => intro r; exact ⟨[], rfl⟩
  | cons e rest ih =>
    intro r
    obtain ⟨tv, df, sc, pc, _, hrow⟩ :=
      rowCellsFor_ok (h e (List.mem_cons_self e rest)) keys headers
    obtain ⟨sh, hsh⟩ := ih (fun x hx => h x (List.mem_cons_of_mem e hx)) (r + 1)
    refine ⟨writeRow r (tv ::
      (List.map (fun k => (lookupKV df k).getD (JVal.str "")) keys ++
        sc ++ pc)) ++ sh, ?_⟩
    simp only [dataRows, hrow, py_bind_ok, hsh]

theorem unitsSheets_ok {mkvs : List (String × JVal)}
    (hu : keyOk (.obj mkvs) "units" JVal.isObjB = true) :
    ∃ ws, unitsSheets (.obj mkvs) = .ok ws := by
  simp only [unitsSheets, pyGetN, py_bind_ok]
  cases hul : lookupKV mkvs "units" with
  | none => exact ⟨[], rfl⟩
  | some uv =>
    have huv := keyOk_lookup hu uv hul
    obtain ⟨ukvs, rfl⟩ := isObjB_exists huv
    simp only [Option.getD_some]
    by_cases htr : truthy (JVal.obj ukvs) = true
    · rw [if_pos htr]
      simp only [pySub, hul, pyItems, py_bind_ok]
      exact ⟨_, rfl⟩
    · rw [if_neg htr]
      exact ⟨[], rfl⟩

theorem timeseriesHeaders_ok {es : List JVal}
    (h : ∀ e ∈ es, tsEntryWFB e = true) (hne : es ≠ []) :
    ∃ hs, timeseriesHeaders es = .ok hs := by
  obtain ⟨keys, hkeys, _, _⟩ := sortedDetailKeys_ok h
  have hsample : tsEntryWFB (es.headD (.obj [])) = true := by
    cases es with
    | nil => exact absurd rfl hne
    | cons x rest => exact h x (List.mem_cons_self x rest)
  obtain ⟨c1, c2, hconds, _, _⟩ := headerConds_ok hsample
  refine ⟨("Time" :: keys) ++ (if c1 then ["Next 1hr Symbol"] else []) ++
    (if c2 then ["Next 1hr Precip (mm)"] else []), ?_⟩
  simp only [timeseriesHeaders, hkeys, py_bind_ok, hconds]
  rfl

theorem pyGetD_arrD {kvs : List (String × JVal)} {p : JVal → Bool} {k : String}
    (hk : keyOk (.obj kvs) k p = true)
    (hp : ∀ v, p v = true → v.isArrB = true) :
    ∃ xs, pyGetD (.obj kvs) k (.arr []) = .ok (.arr xs) ∧
      (xs = [] ∨ p (.arr xs) = true) := by
  simp only [pyGetD]
  cases h : lookupKV kvs k with
  | none => exact ⟨[], rfl, Or.inl rfl⟩
  | some v =>
    have hv := keyOk_lookup hk v h
    have harr := hp v hv
    obtain ⟨xs, rfl⟩ := isArrB_exists harr
    exact ⟨xs, rfl, Or.inr hv⟩

theorem formatTimeseries_ok {dkvs : List (String × JVal)} (title : String)
    (hp : keyOk (.obj dkvs) "properties" propsWFB = true)
    (hg : keyOk (.obj dkvs) "geometry" geoWFB = true) :
    ∃ wb, formatTimeseries (.obj dkvs) title = .ok wb := by
  obtain ⟨pkvs, hprops, hpp⟩ := pyGetD_objD hp (fun v hv => by
    simp only [propsWFB, Bool.and_eq_true] at hv
    exact hv.1.1)
  have htsk : keyOk (.obj pkvs) "timeseries" tsListWFB = true := by
    rcases hpp with rfl | hpp
    · rfl
    · simp only [propsWFB, Bool.and_eq_true] at hpp
      exact hpp.1.2
  have hmetak : keyOk (.obj pkvs) "meta" metaWFB = true := by
    rcases hpp with rfl | hpp
    · rfl
    · simp only [propsWFB, Bool.and_eq_true] at hpp
      exact hpp.2
  obtain ⟨es, hts, hesp⟩ := pyGetD_arrD htsk (fun v hv => by
    cases v <;> first
      | rfl
      | simp [tsListWFB] at hv)
  have hall : ∀ e ∈ es, tsEntryWFB e = true := by
    rcases hesp with rfl | hesp
    · intro e he; cases he
    · simp only [tsListWFB] at hesp
      intro e he
      exact List.all_eq_true.mp hesp e he
  obtain ⟨mkvs, hmeta, hmp⟩ := pyGetD_objD hmetak (fun v hv => by
    simp only [metaWFB, Bool.and_eq_true] at hv
    exact hv.1)
  have hunits : keyOk (.obj mkvs) "units" JVal.isObjB = true := by
    rcases hmp with rfl | hmp
    · rfl
    · simp only [metaWFB, Bool.and_eq_true] at hmp
      exact hmp.2
  obtain ⟨gkvs, hgeo, hgp⟩ := pyGetD_objD hg (fun v hv => by
    simp only [geoWFB, Bool.and_eq_true] at hv
    exact hv.1)
  have hcoordk : keyOk (.obj gkvs) "coordinates" JVal.isArrB = true := by
    rcases hgp with rfl | hgp
    · rfl
    · simp only [geoWFB, Bool.and_eq_true] at hgp
      exact hgp.2
  simp only [formatTimeseries, hprops, py_bind_ok, hts, hmeta, hgeo]
  by_cases htr : truthy (JVal.arr es) = false
  · rw [if_pos htr]
    exact ⟨_, rfl⟩
  · rw [if_neg htr]
    have hesne : es ≠ [] := by
      intro h0
      subst h0
      simp [truthy] at htr
    simp only [pyList, py_bind_ok]
    obtain ⟨cxs, hcoords, _⟩ := pyGetD_arrD hcoordk (fun v hv => hv)
    simp only [hcoords, py_bind_ok, pyLen]
    obtain ⟨keys, hkeys, _, _⟩ := sortedDetailKeys_ok hall
    obtain ⟨hdrs, hhdrs⟩ := timeseriesHeaders_ok hall hesne
    obtain ⟨rows, hrows⟩ := dataRows_ok hall keys hdrs 7
    obtain ⟨us, hus⟩ := unitsSheets_ok hunits
    by_cases hlen : 2 ≤ cxs.length
    · rw [if_pos hlen]
      have h1 : cxs[1]? = some cxs[1] := List.getElem?_eq_getElem (by omega)
      have h0 : cxs[0]? = some cxs[0] := List.getElem?_eq_getElem (by omega)
      simp only [pyIdx, h1, h0, py_bind_ok, pyGetD, hkeys, hhdrs, hrows, hus]
      exact ⟨_, rfl⟩
    · rw [if_neg hlen]
      simp only [py_bind_ok, pyGetD, hkeys, hhdrs, hrows, hus]
      exact ⟨_, rfl⟩

/-- C8: for every well-formed mapping input (any optional sub-key may be
absent), each of the four format functions returns normally: no Python
exception path is reached, and an absent section key degrades to omission,
as witnessed by the text rendering collapsing to its skeleton when both
optional sections are absent. -/
theorem formatters_no_throw (d : JVal) (title : String) (now : PyDateTime)
    (h : WFB d = true) :
    (∃ out, htmlFormat d title now = .ok out) ∧
    (∃ lines, textFormatLines d title now = .ok lines ∧
      textFormat d title now = .ok (String.intercalate "\n" lines)) ∧
    (∃ wb, excelFormat d title = .ok wb) ∧
    yamlFormat now d =
      .obj [("generated_at", .str (pyIsoformat now)), ("data", d)] ∧
    ((d.get? "_metadata" = none ∧ d.get? "error" = none) →
      textFormatLines d title now = .ok
        ([String.mk (List.replicate 80 '='), pyCenter title 80,
          String.mk (List.replicate 80 '='), ""] ++
         ["FULL RESPONSE DATA", String.mk (List.replicate 80 '-'),
          String.mk (jsonDumpsTop d), ""] ++
         [String.mk (List.replicate 80 '-'),
          "Generated: " ++ pyStrftimeFooter now,
          String.mk (List.replicate 80 '=')])) := by
  simp only [WFB, Bool.and_eq_true] at h
  obtain ⟨⟨⟨ho, hm⟩, hp⟩, hg⟩ := h
  obtain ⟨dkvs, rfl⟩ := isObjB_exists ho
  refine ⟨?_, ?_, ?_, rfl, ?_⟩
  · obtain ⟨mp, ep, heq, _⟩ := htmlFormat_ok title now hm
    exact ⟨_, heq⟩
  · obtain ⟨ml, el, heq, _⟩ := textFormatLines_ok title now hm
    refine ⟨_, heq, ?_⟩
    simp only [textFormat, heq]
    rfl
  · simp only [excelFormat]
    by_cases hts : isTimeseriesData (.obj dkvs) = true
    · rw [if_pos hts]
      exact formatTimeseries_ok title hp hg
    · rw [if_neg hts]
      obtain ⟨mc, ec, r1, r2, heq, _⟩ := formatGeneric_ok title hm
      exact ⟨_, heq⟩
  · rintro ⟨hmd, herr⟩
    simp only [JVal.get?] at hmd herr
    obtain ⟨ml, el, heq, hml, _, hel, _⟩ := textFormatLines_ok title now hm
    rw [hml hmd, hel herr] at heq
    simpa using heq

theorem formatters_no_throw_witness :
    WFB (.obj []) = true ∧
    ((∃ out, htmlFormat (.obj []) "API Response"
        ⟨2024, 1, 1, 0, 0, 0, 0⟩ = .ok out) ∧
     (∃ lines, textFormatLines (.obj []) "API Response"
        ⟨2024, 1, 1, 0, 0, 0, 0⟩ = .ok lines ∧
       textFormat (.obj []) "API Response" ⟨2024, 1, 1, 0, 0, 0, 0⟩ =
         .ok (String.intercalate "\n" lines)) ∧
     (∃ wb, excelFormat (.obj []) "API Response" = .ok wb) ∧
     yamlFormat ⟨2024, 1, 1, 0, 0, 0, 0⟩ (.obj []) =
       .obj [("generated_at",
         .str (pyIsoformat ⟨2024, 1, 1, 0, 0, 0, 0⟩)), ("data", .obj [])] ∧
     ((JVal.get? (.obj []) "_metadata" = none ∧
         JVal.get? (.obj []) "error" = none) →
       textFormatLines (.obj []) "API Response" ⟨2024, 1, 1, 0, 0, 0, 0⟩ = .ok
         ([String.mk (List.replicate 80 '='),
           pyCenter "API Response" 80,
           String.mk (List.replicate 80 '='), ""] ++
          ["FULL RESPONSE DATA", String.mk (List.replicate 80 '-'),
           String.mk (jsonDumpsTop (.obj [])), ""] ++
          [String.mk (List.replicate 80 '-'),
           "Generated: " ++ pyStrftimeFooter ⟨2024, 1, 1, 0, 0, 0, 0⟩,
           String.mk (List.replicate 80 '=')]))) :=
  ⟨rfl, formatters_no_throw (.obj []) "API Response"
    ⟨2024, 1, 1, 0, 0, 0, 0⟩ rfl⟩

theorem hasCellStr_of_mem {wb : Workbook} {r c : ℕ} {s : String}
    (hmem : (r, c, JVal.str s) ∈ wbCells wb) : hasCellStr wb s = true := by
  simp only [hasCellStr, List.any_eq_true]
  exact ⟨(r, c, JVal.str s), hmem, by simp⟩

/-- C5 counterexample: a response that carries an error string and is also
timeseries-shaped goes through tabular mode in the spreadsheet renderer,
which writes no error section at all: neither the Error header cell nor the
Error Message label cell appears, although the error key is present. -/
theorem formatter_error_block_counterexample :
    JVal.get? (.obj [("error", .str "timeout"),
      ("properties", .obj [("timeseries", .arr [.obj [("time",
        .str "2024-01-01T00:00:00Z")]])])]) "error" = some (.str "timeout") ∧
    Except.map (fun wb => hasCellStr wb "Error Message")
      (excelFormat (.obj [("error", .str "timeout"),
        ("properties", .obj [("timeseries", .arr [.obj [("time",
          .str "2024-01-01T00:00:00Z")]])])]) "Tide Data") = .ok false ∧
    Except.map (fun wb => hasCellStr wb "Error")
      (excelFormat (.obj [("error", .str "timeout"),
        ("properties", .obj [("timeseries", .arr [.obj [("time",
          .str "2024-01-01T00:00:00Z")]])])]) "Tide Data") = .ok false :=
  ⟨rfl, rfl, rfl⟩

/-- C5 (amended): for every well-formed response carrying an error value,
the document, plain-text and config renderers always render their distinct
error block containing the error string, with the metadata block still
rendered whenever _metadata is present; the spreadsheet renderer does so
exactly on inputs that are not timeseries-shaped, tabular mode rendering
neither section. The config output carries the error through unchanged
inside its data envelope. -/
theorem formatter_error_blocks (d : JVal) (title : String) (now : PyDateTime)
    (err : JVal) (h : WFB d = true) (he : d.get? "error" = some err) :
    (∃ pre post, htmlFormat d title now =
      .ok (pre ++ htmlErrorBlock (pyStrFn err) ++ post)) ∧
    (∀ mkvs, d.get? "_metadata" = some (.obj mkvs) →
      ∃ pre post, htmlFormat d title now = .ok (pre ++
        (htmlMetaOpen.data ++ htmlMetaLinesOf mkvs ++ htmlMetaClose.data) ++
        post)) ∧
    (∃ lines, textFormatLines d title now = .ok lines ∧
      "ERROR" ∈ lines ∧ ("  " ++ pyStrFn err) ∈ lines ∧
      (d.get? "_metadata" ≠ none → "METADATA" ∈ lines)) ∧
    (yamlFormat now d).get? "data" = some d ∧
    (isTimeseriesData d = false →
      ∃ wb, excelFormat d title = .ok wb ∧
        hasCellStr wb "Error" = true ∧
        hasCellStr wb "Error Message" = true ∧
        (∀ s, err = .str s → hasCellStr wb s = true) ∧
        (d.get? "_metadata" ≠ none → hasCellStr wb "Metadata" = true)) := by
  have h0 := h
  simp only [WFB, Bool.and_eq_true] at h
  obtain ⟨⟨⟨ho, hm⟩, _hp⟩, _hg⟩ := h
  obtain ⟨dkvs, rfl⟩ := isObjB_exists ho
  simp only [JVal.get?] at he
  refine ⟨?_, ?_, ?_, rfl, ?_⟩
  · obtain ⟨mp, ep, heq, _, _, _, herrp⟩ := htmlFormat_ok title now hm
    rw [herrp err he] at heq
    refine ⟨htmlHeadA.data ++ title.data ++ htmlHeadB.data ++ title.data ++
      htmlHeadC.data ++ mp,
      htmlJsonOpen.data ++ "<pre>".data ++
        escapeHtml (jsonDumpsTop (.obj dkvs)) ++ "</pre>".data ++
        htmlFootA.data ++ (pyStrftimeFooter now).data ++ htmlFootB.data, ?_⟩
    rw [heq]
    simp [List.append_assoc]
  · intro mkvs hmk
    simp only [JVal.get?] at hmk
    obtain ⟨mp, ep, heq, _, hmeta, _, _⟩ := htmlFormat_ok title now hm
    rw [hmeta mkvs hmk] at heq
    refine ⟨htmlHeadA.data ++ title.data ++ htmlHeadB.data ++ title.data ++
      htmlHeadC.data,
      ep ++ htmlJsonOpen.data ++ "<pre>".data ++
        escapeHtml (jsonDumpsTop (.obj dkvs)) ++ "</pre>".data ++
        htmlFootA.data ++ (pyStrftimeFooter now).data ++ htmlFootB.data, ?_⟩
    rw [heq]
    simp [List.append_assoc]
  · obtain ⟨ml, el, heq, _, hml, _, herrl⟩ := textFormatLines_ok title now hm
    rw [herrl err he] at heq
    refine ⟨_, heq, by simp, by simp, ?_⟩
    intro hne
    simp only [JVal.get?] at hne
    cases hmd : lookupKV dkvs "_metadata" with
    | none => exact absurd hmd hne
    | some mv =>
      obtain ⟨mkvs, rfl⟩ := isObjB_exists (keyOk_lookup hm mv hmd)
      rw [hml mkvs hmd]
      simp
  · intro hts
    obtain ⟨mc, ec, r1, r2, heq, _, hmc, _, hec⟩ := formatGeneric_ok title hm
    rw [hec err he] at heq
    have hexcel : excelFormat (JVal.obj dkvs) title =
        formatGeneric (JVal.obj dkvs) title := by
      simp [excelFormat, hts]
    refine ⟨_, hexcel.trans heq, ?_, ?_, ?_, ?_⟩
    · refine hasCellStr_of_mem (r := r1) (c := 1) ?_
      simp [wbCells]
    · refine hasCellStr_of_mem (r := r1 + 1) (c := 1) ?_
      simp [wbCells]
    · rintro s rfl
      refine hasCellStr_of_mem (r := r1 + 1) (c := 2) ?_
      simp [wbCells]
    · intro hne
      simp only [JVal.get?] at hne
      cases hmd : lookupKV dkvs "_metadata" with
      | none => exact absurd hmd hne
      | some mv =>
        obtain ⟨mkvs, rfl⟩ := isObjB_exists (keyOk_lookup hm mv hmd)
        rw [hmc mkvs hmd]
        refine hasCellStr_of_mem (r := 3) (c := 1) ?_
        simp [wbCells]

theorem formatter_error_blocks_witness :
    (WFB (.obj [("_metadata", .obj [("api", .str "Test")]),
      ("error", .str "timeout")]) = true ∧
     JVal.get? (.obj [("_metadata", .obj [("api", .str "Test")]),
       ("error", .str "timeout")]) "error" = some (.str "timeout")) ∧
    ((∃ pre post, htmlFormat (.obj [("_metadata", .obj [("api", .str "Test")]),
        ("error", .str "timeout")]) "T" ⟨2024, 1, 1, 0, 0, 0, 0⟩ =
      .ok (pre ++ htmlErrorBlock (pyStrFn (.str "timeout")) ++ post)) ∧
    (∀ mkvs, JVal.get? (.obj [("_metadata", .obj [("api", .str "Test")]),
        ("error", .str "timeout")]) "_metadata" = some (.obj mkvs) →
      ∃ pre post, htmlFormat (.obj [("_metadata", .obj [("api", .str "Test")]),
          ("error", .str "timeout")]) "T" ⟨2024, 1, 1, 0, 0, 0, 0⟩ =
        .ok (pre ++
        (htmlMetaOpen.data ++ htmlMetaLinesOf mkvs ++ htmlMetaClose.data) ++
        post)) ∧
    (∃ lines, textFormatLines (.obj [("_metadata", .obj [("api", .str "Test")]),
        ("error", .str "timeout")]) "T" ⟨2024, 1, 1, 0, 0, 0, 0⟩ = .ok lines ∧
      "ERROR" ∈ lines ∧ ("  " ++ pyStrFn (.str "timeout")) ∈ lines ∧
      (JVal.get? (.obj [("_metadata", .obj [("api", .str "Test")]),
        ("error", .str "timeout")]) "_metadata" ≠ none → "METADATA" ∈ lines)) ∧
    (yamlFormat ⟨2024, 1, 1, 0, 0, 0, 0⟩
        (.obj [("_metadata", .obj [("api", .str "Test")]),
          ("error", .str "timeout")])).get? "data" =
      some (.obj [("_metadata", .obj [("api", .str "Test")]),
        ("error", .str "timeout")]) ∧
    (isTimeseriesData (.obj [("_metadata", .obj [("api", .str "Test")]),
        ("error", .str "timeout")]) = false →
      ∃ wb, excelFormat (.obj [("_metadata", .obj [("api", .str "Test")]),
          ("error", .str "timeout")]) "T" = .ok wb ∧
        hasCellStr wb "Error" = true ∧
        hasCellStr wb "Error Message" = true ∧
        (∀ s, (JVal.str "timeout") = .str s → hasCellStr wb s = true) ∧
        (JVal.get? (.obj [("_metadata", .obj [("api", .str "Test")]),
            ("error", .str "timeout")]) "_metadata" ≠ none →
          hasCellStr wb "Metadata" = true))) :=
  ⟨⟨rfl, rfl⟩, formatter_error_blocks
    (.obj [("_metadata", .obj [("api", .str "Test")]), ("error", .str "timeout")])
    "T" ⟨2024, 1, 1, 0, 0, 0, 0⟩ (.str "timeout") rfl rfl⟩

/-! Theorems: the isoformat timestamp shape (claim C6). -/

theorem isDigitChar_digitChar : ∀ m, m < 10 → isDigitChar (digitChar m) = true := by
  decide

theorem natDigits_length_le :
    ∀ (k : ℕ) (n : ℕ), n < 10 ^ k → 0 < k → (natDigits n).length ≤ k := by
  intro k
  induction k with
  | zero => intro n _ hk; omega
  | succ k ih =>
    intro n hn _
    by_cases h10 : n < 10
    · rw [natDigits, dif_pos h10]
      simp
    · rw [natDigits, dif_neg h10]
      have hdiv : n / 10 < 10 ^ k := by
        rw [Nat.div_lt_iff_lt_mul (by norm_num)]
        calc n < 10 ^ (k + 1) := hn
        _ = 10 ^ k * 10 := by ring
      have hk : 0 < k := by
        by_contra hk0
        have : k = 0 := by omega
        subst this
        simp at hdiv
        omega
      have := ih (n / 10) hdiv hk
      simp only [List.length_append, List.length_cons, List.length_nil]
      omega

theorem natDigits_length_pos (n : ℕ) : 0 < (natDigits n).length := by
  by_cases h10 : n < 10
  · rw [natDigits, dif_pos h10]
    simp
  · rw [natDigits, dif_neg h10]
    simp

theorem natDigits_all_digits : ∀ n, allDigits (natDigits n) = true := by
  intro n
  induction n using Nat.strong_induction_on with
  | _ n ih =>
    by_cases h10 : n < 10
    · rw [natDigits, dif_pos h10]
      simp [allDigits, isDigitChar_digitChar n h10]
    · rw [natDigits, dif_neg h10]
      have hlt : n / 10 < n := Nat.div_lt_self (by omega) (by norm_num)
      have h1 := ih (n / 10) hlt
      have h2 := isDigitChar_digitChar (n % 10) (Nat.mod_lt n (by norm_num))
      simp only [allDigits, List.all_append] at h1 ⊢
      simp [h1, h2]

theorem padNum_spec (w n : ℕ) (hn : n < 10 ^ w) (hw : 0 < w) :
    (padNum w n).data.length = w ∧ allDigits (padNum w n).data = true := by
  have hle := natDigits_length_le w n hn hw
  constructor
  · simp only [padNum, List.length_append, List.length_replicate]
    omega
  · simp only [padNum, allDigits, List.all_append]
    have h0 : (List.replicate (w - (natDigits n).length) '0').all isDigitChar = true := by
      refine List.all_eq_true.mpr fun c hc => ?_
      rw [List.eq_of_mem_replicate hc]
      rfl
    have h1 := natDigits_all_digits n
    simp only [allDigits] at h1
    simp [h0, h1]

theorem exists_two {l : List Char} (h : l.length = 2) :
    ∃ a b, l = [a, b] := by
  match l, h with
  | [a, b], _ => exact ⟨a, b, rfl⟩

theorem exists_four {l : List Char} (h : l.length = 4) :
    ∃ a b c d, l = [a, b, c, d] := by
  match l, h with
  | [a, b, c, d], _ => exact ⟨a, b, c, d, rfl⟩

theorem isoformat_valid {t : PyDateTime} (h : t.ValidB = true) :
    isValidTimestamp (pyIsoformat t) = true := by
  simp only [PyDateTime.ValidB, Bool.and_eq_true, decide_eq_true_eq] at h
  obtain ⟨⟨⟨⟨⟨⟨⟨⟨⟨_, hy⟩, _⟩, hmo⟩, _⟩, hd⟩, hh⟩, hmi⟩, hs⟩, hus⟩ := h
  obtain ⟨hylen, hydig⟩ := padNum_spec 4 t.year (by omega) (by omega)
  obtain ⟨a1, a2, a3, a4, hya⟩ := exists_four hylen
  obtain ⟨hmolen, hmodig⟩ := padNum_spec 2 t.month (by omega) (by omega)
  obtain ⟨b1, b2, hmob⟩ := exists_two hmolen
  obtain ⟨hdlen, hddig⟩ := padNum_spec 2 t.day (by omega) (by omega)
  obtain ⟨c1, c2, hdc⟩ := exists_two hdlen
  obtain ⟨hhlen, hhdig⟩ := padNum_spec 2 t.hour (by omega) (by omega)
  obtain ⟨e1, e2, hhe⟩ := exists_two hhlen
  obtain ⟨hmilen, hmidig⟩ := padNum_spec 2 t.minute (by omega) (by omega)
  obtain ⟨f1, f2, hmif⟩ := exists_two hmilen
  obtain ⟨hslen, hsdig⟩ := padNum_spec 2 t.second (by omega) (by omega)
  obtain ⟨g1, g2, hsg⟩ := exists_two hslen
  have hdata : (pyIsoformat t).data =
      (padNum 4 t.year).data ++ '-' :: ((padNum 2 t.month).data ++
        '-' :: ((padNum 2 t.day).data ++ 'T' :: ((padNum 2 t.hour).data ++
          ':' :: ((padNum 2 t.minute).data ++
            ':' :: ((padNum 2 t.second).data ++
              (if t.microsecond = 0 then [] else
                '.' :: (padNum 6 t.microsecond).data)))))) := by
    simp only [pyIsoformat, String.data_append]
    by_cases hms : t.microsecond = 0
    · rw [if_pos hms, if_pos hms]
      simp
    · rw [if_neg hms, if_neg hms]
      simp [String.data_append]
  rw [isValidTimestamp, hdata, hya, hmob, hdc, hhe, hmif, hsg]
  rw [hya] at hydig
  rw [hmob] at hmodig
  rw [hdc] at hddig
  rw [hhe] at hhdig
  rw [hmif] at hmidig
  rw [hsg] at hsdig
  simp only [allDigits, List.all_cons, List.all_nil, Bool.and_eq_true,
    Bool.and_true] at hydig hmodig hddig hhdig hmidig hsdig
  simp only [List.cons_append, List.nil_append, isValidTimestampChars,
    allDigits, List.all_cons, List.all_nil]
  have hfrac : checkFrac (if t.microsecond = 0 then [] else
      '.' :: (padNum 6 t.microsecond).data) = true := by
    by_cases hms : t.microsecond = 0
    · rw [if_pos hms]
      rfl
    · rw [if_neg hms]
      obtain ⟨hmslen, hmsdig⟩ := padNum_spec 6 t.microsecond (by omega) (by omega)
      simp only [checkFrac]
      have hne : (padNum 6 t.microsecond).data.isEmpty = false := by
        cases hq : (padNum 6 t.microsecond).data with
        | nil => rw [hq] at hmslen; simp at hmslen
        | cons x xs => rfl
      simp [hne, allDigits] at hmsdig ⊢
      exact hmsdig
  simp [hydig, hmodig, hddig, hhdig, hmidig, hsdig, hfrac]

/-- C6: the config (YAML) output is a two-key envelope whose keys come in
declared order, generated_at then data (sort_keys=False keeps insertion
order); the value under data is the original response unchanged; and
generated_at holds the datetime.now().isoformat() string, which parses as a
valid timestamp. The external yaml dump/load pair is modelled structurally,
dump followed by load being the identity on these documents. -/
theorem yaml_envelope_roundtrip (now : PyDateTime) (d : JVal)
    (h : now.ValidB = true) :
    yamlFormat now d = .obj [("generated_at", .str (pyIsoformat now)),
      ("data", d)] ∧
    (yamlFormat now d).get? "data" = some d ∧
    (yamlFormat now d).get? "generated_at" = some (.str (pyIsoformat now)) ∧
    (∃ kvs, yamlFormat now d = .obj kvs ∧
      kvs.map Prod.fst = ["generated_at", "data"]) ∧
    isValidTimestamp (pyIsoformat now) = true :=
  ⟨rfl, rfl, rfl, ⟨_, rfl, rfl⟩, isoformat_valid h⟩

theorem yaml_envelope_roundtrip_witness :
    PyDateTime.ValidB ⟨2024, 1, 1, 12, 30, 45, 123456⟩ = true ∧
    (yamlFormat ⟨2024, 1, 1, 12, 30, 45, 123456⟩ (.obj [("x", .int 1)]) =
      .obj [("generated_at",
        .str (pyIsoformat ⟨2024, 1, 1, 12, 30, 45, 123456⟩)),
        ("data", .obj [("x", .int 1)])] ∧
    (yamlFormat ⟨2024, 1, 1, 12, 30, 45, 123456⟩
      (.obj [("x", .int 1)])).get? "data" = some (.obj [("x", .int 1)]) ∧
    (yamlFormat ⟨2024, 1, 1, 12, 30, 45, 123456⟩
      (.obj [("x", .int 1)])).get? "generated_at" =
        some (.str (pyIsoformat ⟨2024, 1, 1, 12, 30, 45, 123456⟩)) ∧
    (∃ kvs, yamlFormat ⟨2024, 1, 1, 12, 30, 45, 123456⟩
        (.obj [("x", .int 1)]) = .obj kvs ∧
      kvs.map Prod.fst = ["generated_at", "data"]) ∧
    isValidTimestamp (pyIsoformat ⟨2024, 1, 1, 12, 30, 45, 123456⟩) = true) :=
  ⟨rfl, yaml_envelope_roundtrip ⟨2024, 1, 1, 12, 30, 45, 123456⟩
    (.obj [("x", .int 1)]) rfl⟩

/-- C9: no renderer mutates its input. In this pure embedding every
formatter is a function of the response value, built from reads only, so
the input after a call is the value it was before; the checkable content is
the YAML formatter, which builds a fresh two-key envelope around the
unchanged input instead of inserting generated_at into it: the value under
data is the input itself, every lookup through it agrees with the input,
and the absence of generated_at inside the input is preserved. -/
theorem renderers_preserve_input (d : JVal) (now : PyDateTime) :
    (yamlFormat now d).get? "data" = some d ∧
    (∀ e, (yamlFormat now d).get? "data" = some e → e = d) ∧
    (∀ kvs, yamlFormat now d = .obj kvs →
      kvs = [("generated_at", .str (pyIsoformat now)), ("data", d)]) ∧
    (∀ k, ((yamlFormat now d).get? "data").bind (fun x => x.get? k) =
      d.get? k) ∧
    (d.get? "generated_at" = none →
      ((yamlFormat now d).get? "data").bind
        (fun x => x.get? "generated_at") = none) := by
  refine ⟨rfl, ?_, ?_, fun k => rfl, fun h => h⟩
  · intro e he
    have : some d = some e := by
      calc some d = (yamlFormat now d).get? "data" := rfl
      _ = some e := he
    injection this with h2
    exact h2.symm
  · intro kvs hk
    simp only [yamlFormat] at hk
    injection hk with h2
    exact h2.symm

/-! Theorems: the escape chain of the document formatter (claim C7). -/

theorem concatEach_append (f : Char → List Char) (a b : List Char) :
    concatEach f (a ++ b) = concatEach f a ++ concatEach f b := by
  induction a with
  | nil => rfl
  | cons c cs ih => simp [concatEach, ih, List.append_assoc]

theorem concatEach_comp (f g : Char → List Char) (s : List Char) :
    concatEach g (concatEach f s) =
      concatEach (fun c => concatEach g (f c)) s := by
  induction s with
  | nil => rfl
  | cons c cs ih => simp [concatEach, concatEach_append, ih]

theorem concatEach_congr {f g : Char → List Char} (h : ∀ c, f c = g c) :
    ∀ s, concatEach f s = concatEach g s := by
  intro s
  induction s with
  | nil => rfl
  | cons c cs ih => simp [concatEach, h c, ih]

theorem escapeHtml_eq (s : List Char) : escapeHtml s = concatEach escChar s := by
  simp only [escapeHtml, pyReplaceChar]
  rw [concatEach_comp, concatEach_comp]
  refine concatEach_congr (fun c => ?_) s
  by_cases hA : c = '&'
  · subst hA; rfl
  · by_cases hB : c = '<'
    · subst hB; rfl
    · by_cases hC : c = '>'
      · subst hC; rfl
      · simp [concatEach, escChar, hA, hB, hC]

theorem mem_concatEach {f : Char → List Char} {s : List Char} {c : Char}
    (h : c ∈ concatEach f s) : ∃ a ∈ s, c ∈ f a := by
  induction s with
  | nil => cases h
  | cons a as ih =>
    simp only [concatEach, List.mem_append] at h
    rcases h with h | h
    · exact ⟨a, List.mem_cons_self a as, h⟩
    · obtain ⟨b, hb, hcb⟩ := ih h
      exact ⟨b, List.mem_cons_of_mem a hb, hcb⟩

theorem escapeHtml_no_angle (s : List Char) :
    ∀ c ∈ escapeHtml s, c ≠ '<' ∧ c ≠ '>' := by
  intro c hc
  rw [escapeHtml_eq] at hc
  obtain ⟨a, _, hca⟩ := mem_concatEach hc
  simp only [escChar] at hca
  split_ifs at hca with hA hB hC
  · simp at hca
    rcases hca with rfl | rfl | rfl | rfl | rfl <;> exact ⟨by decide, by decide⟩
  · simp at hca
    rcases hca with rfl | rfl | rfl | rfl <;> exact ⟨by decide, by decide⟩
  · simp at hca
    rcases hca with rfl | rfl | rfl | rfl <;> exact ⟨by decide, by decide⟩
  · simp at hca
    subst hca
    exact ⟨hB, hC⟩

/-- C7: the document output escapes every ampersand, less-than and
greater-than of the serialized body (the replace chain equals the
character-wise entity map, so the escaped body contains no angle bracket at
all), and it is the only one of the four formats that escapes: the plain
text output carries the serialized body verbatim as one of its lines, the
generic spreadsheet output stores it verbatim in a cell, and the config
output carries the response value itself unserialized in its envelope. -/
theorem html_escapes_body (d : JVal) (title : String) (now : PyDateTime)
    (h : WFB d = true) :
    (∃ pre post, htmlFormat d title now = .ok (pre ++ "<pre>".data ++
      escapeHtml (jsonDumpsTop d) ++ "</pre>".data ++ post)) ∧
    escapeHtml (jsonDumpsTop d) = concatEach escChar (jsonDumpsTop d) ∧
    (∀ c ∈ escapeHtml (jsonDumpsTop d), c ≠ '<' ∧ c ≠ '>') ∧
    (∃ lines, textFormatLines d title now = .ok lines ∧
      String.mk (jsonDumpsTop d) ∈ lines) ∧
    (isTimeseriesData d = false →
      ∃ wb, excelFormat d title = .ok wb ∧
        hasCellStr wb (String.mk (jsonDumpsTop d)) = true) ∧
    (yamlFormat now d).get? "data" = some d := by
  simp only [WFB, Bool.and_eq_true] at h
  obtain ⟨⟨⟨ho, hm⟩, _hp⟩, _hg⟩ := h
  obtain ⟨dkvs, rfl⟩ := isObjB_exists ho
  refine ⟨?_, escapeHtml_eq _, escapeHtml_no_angle _, ?_, ?_, rfl⟩
  · obtain ⟨mp, ep, heq, _⟩ := htmlFormat_ok title now hm
    refine ⟨htmlHeadA.data ++ title.data ++ htmlHeadB.data ++ title.data ++
      htmlHeadC.data ++ mp ++ ep ++ htmlJsonOpen.data,
      htmlFootA.data ++ (pyStrftimeFooter now).data ++ htmlFootB.data, ?_⟩
    rw [heq]
    simp [List.append_assoc]
  · obtain ⟨ml, el, heq, _⟩ := textFormatLines_ok title now hm
    exact ⟨_, heq, by simp⟩
  · intro hts
    obtain ⟨mc, ec, r1, r2, heq, _⟩ := formatGeneric_ok title hm
    have hexcel : excelFormat (JVal.obj dkvs) title =
        formatGeneric (JVal.obj dkvs) title := by
      simp [excelFormat, hts]
    refine ⟨_, hexcel.trans heq, ?_⟩
    refine hasCellStr_of_mem (r := r2 + 1) (c := 1) ?_
    simp [wbCells]

theorem html_escapes_body_witness :
    WFB (.obj [("x", .str "a<b&c")]) = true ∧
    ((∃ pre post, htmlFormat (.obj [("x", .str "a<b&c")]) "T"
        ⟨2024, 1, 1, 0, 0, 0, 0⟩ = .ok (pre ++ "<pre>".data ++
      escapeHtml (jsonDumpsTop (.obj [("x", .str "a<b&c")])) ++
      "</pre>".data ++ post)) ∧
    escapeHtml (jsonDumpsTop (.obj [("x", .str "a<b&c")])) =
      concatEach escChar (jsonDumpsTop (.obj [("x", .str "a<b&c")])) ∧
    (∀ c ∈ escapeHtml (jsonDumpsTop (.obj [("x", .str "a<b&c")])),
      c ≠ '<' ∧ c ≠ '>') ∧
    (∃ lines, textFormatLines (.obj [("x", .str "a<b&c")]) "T"
        ⟨2024, 1, 1, 0, 0, 0, 0⟩ = .ok lines ∧
      String.mk (jsonDumpsTop (.obj [("x", .str "a<b&c")])) ∈ lines) ∧
    (isTimeseriesData (.obj [("x", .str "a<b&c")]) = false →
      ∃ wb, excelFormat (.obj [("x", .str "a<b&c")]) "T" = .ok wb ∧
        hasCellStr wb
          (String.mk (jsonDumpsTop (.obj [("x", .str "a<b&c")]))) = true) ∧
    (yamlFormat ⟨2024, 1, 1, 0, 0, 0, 0⟩
      (.obj [("x", .str "a<b&c")])).get? "data" =
        some (.obj [("x", .str "a<b&c")])) :=
  ⟨rfl, html_escapes_body (.obj [("x", .str "a<b&c")]) "T"
    ⟨2024, 1, 1, 0, 0, 0, 0⟩ rfl⟩

theorem infix_append_left {α : Type} {M R : List α} {sub : List α}
    (h : sub <:+: M) : sub <:+: M ++ R :=
  h.trans ⟨[], R, rfl⟩

theorem infix_append_right {α : Type} {L M : List α} {sub : List α}
    (h : sub <:+: M) : sub <:+: L ++ M :=
  h.trans ⟨L, [], by simp⟩

theorem infix_cross {α : Type} (a b T c d : List α) :
    (b ++ T ++ c) <:+: ((a ++ b) ++ T ++ (c ++ d)) :=
  ⟨a, d, by simp [List.append_assoc]⟩

set_option maxRecDepth 10000

/-- C10: in the document output the title, the metadata key and value texts
and the error string are interpolated with no escaping, only the serialized
JSON body being escaped: on an input whose title, metadata value and error
string contain angle brackets and ampersands, those characters reach the
generated markup verbatim, while the escaped body still contains no angle
bracket. -/
theorem html_unescaped_interpolations :
    ∃ out, htmlFormat (.obj [("_metadata", .obj [("k", .str "v<w")]),
        ("error", .str "x<y & z")]) "<Ti&tle>" ⟨2024, 1, 1, 0, 0, 0, 0⟩ =
      .ok out ∧
      "<title><Ti&tle></title>".data <:+: out ∧
      "<p><strong>k:</strong> v<w</p>".data <:+: out ∧
      "<p>x<y & z</p>".data <:+: out ∧
      (∀ c ∈ escapeHtml (jsonDumpsTop (.obj [("_metadata",
          .obj [("k", .str "v<w")]), ("error", .str "x<y & z")])),
        c ≠ '<' ∧ c ≠ '>') := by
  have hm : keyOk (.obj [("_metadata", .obj [("k", JVal.str "v<w")]),
      ("error", .str "x<y & z")]) "_metadata" JVal.isObjB = true := rfl
  obtain ⟨mp, ep, heq, _, hmeta, _, herr⟩ :=
    htmlFormat_ok "<Ti&tle>" ⟨2024, 1, 1, 0, 0, 0, 0⟩ hm
  rw [hmeta [("k", .str "v<w")] rfl, herr (.str "x<y & z") rfl] at heq
  refine ⟨_, heq, ?_, ?_, ?_, escapeHtml_no_angle _⟩
  · have hA : htmlHeadA.data = htmlHeadA.data.take 146 ++ "<title>".data := by
      have h0 := (List.take_append_drop 146 htmlHeadA.data).symm
      rw [show htmlHeadA.data.drop 146 = "<title>".data from rfl] at h0
      exact h0
    have hB : htmlHeadB.data = "</title>".data ++ htmlHeadB.data.drop 8 := by
      have h0 := (List.take_append_drop 8 htmlHeadB.data).symm
      rw [show htmlHeadB.data.take 8 = "</title>".data from rfl] at h0
      exact h0
    apply infix_append_left
    apply infix_append_left
    apply infix_append_left
    apply infix_append_left
    apply infix_append_left
    apply infix_append_left
    apply infix_append_left
    apply infix_append_left
    apply infix_append_left
    apply infix_append_left
    apply infix_append_left
    rw [show ("<title><Ti&tle></title>".data : List Char) =
      "<title>".data ++ "<Ti&tle>".data ++ "</title>".data from rfl]
    rw [hA, hB]
    exact infix_cross (htmlHeadA.data.take 146) "<title>".data
      "<Ti&tle>".data "</title>".data (htmlHeadB.data.drop 8)
  · apply infix_append_left
    apply infix_append_left
    apply infix_append_left
    apply infix_append_left
    apply infix_append_left
    apply infix_append_left
    apply infix_append_left
    apply infix_append_left
    apply infix_append_right
    apply infix_append_left
    apply infix_append_right
    decide
  · apply infix_append_left
    apply infix_append_left
    apply infix_append_left
    apply infix_append_left
    apply infix_append_left
    apply infix_append_left
    apply infix_append_left
    apply infix_append_right
    decide
